import Mathlib

/-!
Verification of the AI travel itinerary planner (a single-file Streamlit
application, `src/main.py`).

All text is modelled as `List Char`.  The Python string operations the
program uses (`str.strip`, `str.split`, the `in` containment test) are
embedded below as `pyStrip`, `pySplit` and `hasOccur`, matching CPython
semantics for non-empty separators.  `json.loads` is embedded as `parseJson`,
a fuel-indexed recursive-descent parser for the JSON fragment the program
exchanges with the model: objects, arrays, strings without escape sequences,
non-negative integer numbers, booleans and null.  (Floating point numbers
and string escape sequences are outside the modelled fragment; every theorem
below stays inside it.)  Streamlit is modelled only where its behaviour is
observable in the claims: `st.columns n` fails for `n = 0` (Streamlit raises
`StreamlitAPIException` for a non-positive integer spec), a disabled button
cannot be clicked, and `st.session_state` is the record `AppState`.
-/

set_option maxHeartbeats 1000000

/-- Characters of a Lean string literal, used for embedding Python string
literals from `src/main.py`. -/
def klist (s : String) : List Char := s.data

/-- The backtick character (written via its code point). -/
def btChar : Char := Char.ofNat 96

/-- The three-character fence marker appearing in the model-response cleanup
of `generate_itinerary_with_gemini`. -/
def bt3 : List Char := [btChar, btChar, btChar]

/-- The seven-character marker that opens a json code fence. -/
def json7 : List Char := bt3 ++ klist "json"

/-- A response wrapped in a json code fence, as in the spec's example
fenced text. -/
def fenceWrap (c : List Char) : List Char := json7 ++ '\n' :: (c ++ '\n' :: bt3)

/-- Python `str.strip` whitespace (space, tab, newline, carriage return,
vertical tab, form feed). -/
def isPyWs (c : Char) : Bool :=
  c = ' ' || c = '\t' || c = '\n' || c = '\r' || c = Char.ofNat 11 || c = Char.ofNat 12

/-- Embedding of Python `str.strip()`. -/
def pyStrip (s : List Char) : List Char :=
  ((s.dropWhile isPyWs).reverse.dropWhile isPyWs).reverse

/-- Worker for `pySplit`.  Scans left to right; each time `sep` matches it
emits the accumulated segment and continues after the separator, exactly as
Python `str.split(sep)` does for a non-empty `sep`.  The fuel is the length
of the scanned text, which always suffices. -/
def pySplitGo (sep : List Char) : Nat → List Char → List Char → List (List Char)
  | _, acc, [] => [acc.reverse]
  | 0, acc, rest => [acc.reverse ++ rest]
  | fuel + 1, acc, c :: rest =>
    if sep.isPrefixOf (c :: rest) then
      acc.reverse :: pySplitGo sep fuel [] (List.drop (sep.length - 1) rest)
    else
      pySplitGo sep fuel (c :: acc) rest

/-- Embedding of Python `s.split(sep)` for a non-empty separator. -/
def pySplit (sep s : List Char) : List (List Char) := pySplitGo sep s.length [] s

/-- Embedding of Python `sep in s` (substring containment). -/
def hasOccur (sep : List Char) : List Char → Bool
  | [] => sep.isEmpty
  | c :: rest => sep.isPrefixOf (c :: rest) || hasOccur sep rest

/-- `sep` occurs as a contiguous substring of `s`. -/
def occursIn (sep s : List Char) : Prop := ∃ x y, s = x ++ sep ++ y

/-- Python list indexing with the guarantee (used by the program) that the
index is in range; out-of-range indexing is irrelevant on the guarded paths
the program takes. -/
def getPart (parts : List (List Char)) (i : Nat) : List Char := parts.getD i []

/-- JSON values, as produced by `json.loads` on the modelled fragment.
Object fields keep insertion order, as Python dicts do. -/
inductive Json where
  | null : Json
  | bool (b : Bool) : Json
  | num (n : Nat) : Json
  | str (s : List Char) : Json
  | arr (xs : List Json) : Json
  | obj (fields : List (List Char × Json)) : Json

/-- JSON whitespace accepted between tokens by `json.loads`. -/
def isJsonWs (c : Char) : Bool := c = ' ' || c = '\t' || c = '\n' || c = '\r'

/-- Skip JSON whitespace. -/
def skipWs : List Char → List Char
  | [] => []
  | c :: rest => if isJsonWs c then skipWs rest else c :: rest

/-- Body of a JSON string literal after the opening quote: reads up to the
closing quote.  Escape sequences are outside the modelled fragment. -/
def parseStringBody : List Char → Option (List Char × List Char)
  | [] => none
  | c :: rest =>
    if c = '"' then some ([], rest)
    else if c = '\\' then none
    else
      match parseStringBody rest with
      | some (s, r) => some (c :: s, r)
      | none => none

/-- Digit list to number, most significant first. -/
def digitsToNat (ds : List Char) : Nat := ds.foldl (fun n c => n * 10 + (c.toNat - 48)) 0

/-- The literal `true`. -/
def litTrue : List Char := klist "true"

/-- The literal `false`. -/
def litFalse : List Char := klist "false"

/-- The literal `null`. -/
def litNull : List Char := klist "null"

/-- What the recursive-descent parser is currently parsing: a value, the
elements of an array (after `[`), or the members of an object (after `{`). -/
inductive PMode where
  | value : PMode
  | elems : PMode
  | membs : PMode

/-- Result of one parsing phase. -/
inductive PRes where
  | val (j : Json) : PRes
  | elems (xs : List Json) : PRes
  | membs (ms : List (List Char × Json)) : PRes

/-- The recursive-descent JSON parser (the core of the `json.loads`
embedding).  Fuel decreases on every recursive call; `parseJson` supplies
fuel `2 * length + 2`, which dominates the recursion depth on any input. -/
def parseF : Nat → PMode → List Char → Option (PRes × List Char)
  | 0, _, _ => none
  | fuel + 1, PMode.value, cs =>
    match skipWs cs with
    | [] => none
    | c :: rest =>
      if c = '"' then
        match parseStringBody rest with
        | some (s, r) => some (.val (.str s), r)
        | none => none
      else if c = '[' then
        let r2 := skipWs rest
        if r2.head? = some ']' then some (.val (.arr []), r2.tail)
        else
          match parseF fuel PMode.elems r2 with
          | some (.elems xs, r3) => some (.val (.arr xs), r3)
          | _ => none
      else if c = '{' then
        let r2 := skipWs rest
        if r2.head? = some '}' then some (.val (.obj []), r2.tail)
        else
          match parseF fuel PMode.membs r2 with
          | some (.membs ms, r3) => some (.val (.obj ms), r3)
          | _ => none
      else if c.isDigit then
        some (.val (.num (digitsToNat ((c :: rest).takeWhile Char.isDigit))),
              (c :: rest).dropWhile Char.isDigit)
      else if litTrue.isPrefixOf (c :: rest) then some (.val (.bool true), (c :: rest).drop 4)
      else if litFalse.isPrefixOf (c :: rest) then some (.val (.bool false), (c :: rest).drop 5)
      else if litNull.isPrefixOf (c :: rest) then some (.val Json.null, (c :: rest).drop 4)
      else none
  | fuel + 1, PMode.elems, cs =>
    match parseF fuel PMode.value cs with
    | some (.val v, r) =>
      let r' := skipWs r
      if r'.head? = some ',' then
        match parseF fuel PMode.elems r'.tail with
        | some (.elems xs, r3) => some (.elems (v :: xs), r3)
        | _ => none
      else if r'.head? = some ']' then some (.elems [v], r'.tail)
      else none
    | _ => none
  | fuel + 1, PMode.membs, cs =>
    match skipWs cs with
    | [] => none
    | c :: rest =>
      if c = '"' then
        match parseStringBody rest with
        | some (k, r) =>
          let r' := skipWs r
          if r'.head? = some ':' then
            match parseF fuel PMode.value r'.tail with
            | some (.val v, r3) =>
              let r'' := skipWs r3
              if r''.head? = some ',' then
                match parseF fuel PMode.membs r''.tail with
                | some (.membs ms, r5) => some (.membs ((k, v) :: ms), r5)
                | _ => none
              else if r''.head? = some '}' then some (.membs [(k, v)], r''.tail)
              else none
            | _ => none
          else none
        | none => none
      else none

/-- Embedding of `json.loads`: parse one value and require only whitespace
to remain, as `json.loads` raises on extra data. -/
def parseJson (s : List Char) : Option Json :=
  match parseF (2 * s.length + 2) PMode.value s with
  | some (.val j, r) => if skipWs r = [] then some j else none
  | _ => none

/-- Field update on an association list, with Python dict semantics:
overwriting keeps the position of an existing key, a new key is appended. -/
def setFields : List (List Char × Json) → List Char → Json → List (List Char × Json)
  | [], k, v => [(k, v)]
  | (k', v') :: rest, k, v =>
    if k' = k then (k, v) :: rest else (k', v') :: setFields rest k v

/-- Embedding of `itinerary["destination"] = destination` (`src/main.py`
line 150).  Assignment into a non-dict raises `TypeError` in Python, which
the surrounding `except Exception` turns into a failed attempt; that path
is `none` here. -/
def setField (j : Json) (k : List Char) (v : Json) : Option Json :=
  match j with
  | Json.obj fs => some (Json.obj (setFields fs k v))
  | _ => none

/-- Field lookup, embedding Python `data[key]` when it succeeds. -/
def lookupField : List (List Char × Json) → List Char → Option Json
  | [], _ => none
  | (k', v) :: rest, k => if k' = k then some v else lookupField rest k

/-- `data[key]` on a JSON value; `none` is Python's `KeyError`/`TypeError`. -/
def jsonGetField (j : Json) (k : List Char) : Option Json :=
  match j with
  | Json.obj fs => lookupField fs k
  | _ => none

/-- The response-cleanup step of `generate_itinerary_with_gemini`
(`src/main.py` lines 143-147): strip, then extract the first fenced block
if a fence marker is present. -/
def cleanResponse (raw : List Char) : List Char :=
  let text := pyStrip raw
  if hasOccur json7 text then
    pyStrip (getPart (pySplit bt3 (getPart (pySplit json7 text) 1)) 0)
  else if hasOccur bt3 text then
    pyStrip (getPart (pySplit bt3 (getPart (pySplit bt3 text) 1)) 0)
  else text

/-- How a generation attempt can fail after the model returned text
(`src/main.py` lines 154-160). -/
inductive GenFailure where
  | decodeError (snippet : List Char) : GenFailure
  | otherError : GenFailure
deriving DecidableEq

/-- Normalization of a raw model response (`src/main.py` lines 143-152):
clean the text, `json.loads` it, then inject the request's destination.
`decodeError` carries the bounded 500-character snippet shown in the debug
expander. -/
def normalizeResponse (raw destination : List Char) : Except GenFailure Json :=
  let text := cleanResponse raw
  match parseJson text with
  | none => Except.error (GenFailure.decodeError (text.take 500))
  | some j =>
    match setField j (klist "destination") (Json.str destination) with
    | some j' => Except.ok j'
    | none => Except.error GenFailure.otherError

/-- Outcome of the external model call (`model.generate_content`): the raw
text, or one of the failure classes of the spec's error taxonomy, all of
which surface as exceptions caught by `except Exception`. -/
inductive CallOutcome where
  | ok (text : List Char) : CallOutcome
  | authError : CallOutcome
  | transportError : CallOutcome
  | providerError : CallOutcome
deriving DecidableEq

/-- Embedding of `generate_itinerary_with_gemini` from the model response
on: every error path returns `None`, a successful parse returns the
destination-injected dict (`src/main.py` lines 138-160). -/
def generateItineraryWithGemini (resp : CallOutcome) (destination : List Char) : Option Json :=
  match resp with
  | CallOutcome.ok raw =>
    match normalizeResponse raw destination with
    | Except.ok j => some j
    | Except.error _ => none
  | _ => none

/-- The session state (`st.session_state`): it owns only the `itinerary`
key; no `TripRequest` is stored anywhere in the program. -/
structure AppState where
  itinerary : Option Json

/-- The status label of the generation spinner after the attempt:
`complete` for the success update, `failed` for the error update
(`src/main.py` lines 279 and 282). -/
inductive GenStatus where
  | complete : GenStatus
  | failed : GenStatus
deriving DecidableEq

/-- The state transition of the `generate_btn` handler around the model
call (`src/main.py` lines 272-282): on success the session itinerary is
replaced wholesale; on failure the session state is untouched and the
status indicator turns into the error indicator. -/
def runGeneration (destination : List Char) (resp : CallOutcome) (s : AppState) :
    AppState × GenStatus :=
  match generateItineraryWithGemini resp destination with
  | some j => ({ itinerary := some j }, GenStatus.complete)
  | none => (s, GenStatus.failed)

/-- What the results section displays as the current itinerary
(`src/main.py` line 285-286 reads `st.session_state.itinerary`). -/
def displayedItinerary (s : AppState) : Option Json := s.itinerary

/-- The visible outcome of pressing the generate button. -/
inductive SubmitOutcome where
  | errorNoDestination : SubmitOutcome
  | errorNoInterests : SubmitOutcome
  | generated (status : GenStatus) : SubmitOutcome
deriving DecidableEq

/-- Embedding of the `generate_btn` click handler (`src/main.py` lines
254-282).  The boolean records whether the Model Client was invoked: the
call to `generate_itinerary_with_gemini` sits only on the validated branch. -/
def handleGenerateClick (destination : List Char) (interests : List (List Char))
    (resp : CallOutcome) (s : AppState) : AppState × SubmitOutcome × Bool :=
  if destination.isEmpty then (s, SubmitOutcome.errorNoDestination, false)
  else if interests.isEmpty then (s, SubmitOutcome.errorNoInterests, false)
  else
    let r := runGeneration destination resp s
    (r.1, SubmitOutcome.generated r.2, true)

/-- Credential resolution of `setup_gemini_api` (`src/main.py` line 72):
`os.getenv("GOOGLE_API_KEY") or st.session_state.get("api_key", "")`.
Python `or` takes the right operand when the left is `None` or the empty
(falsy) string; the session lookup defaults to the empty string. -/
def resolveApiKey (env sessionKey : Option (List Char)) : List Char :=
  match env with
  | some e => if e.isEmpty then sessionKey.getD [] else e
  | none => sessionKey.getD []

/-- Embedding of `setup_gemini_api` (`src/main.py` lines 70-81): reports
the API configured exactly when the resolved key is non-empty
(`genai.configure` merely records the key and does not raise for a
non-empty string). -/
def setupGeminiApi (env sessionKey : Option (List Char)) : Bool :=
  !(resolveApiKey env sessionKey).isEmpty

/-- The generate button is rendered with `disabled=not api_configured`
(`src/main.py` line 246). -/
def generateBtnEnabled (env sessionKey : Option (List Char)) : Bool :=
  setupGeminiApi env sessionKey

/-- A Streamlit button that is disabled never reports a click, so a
generation starts only when the button is enabled and clicked. -/
def generationStarts (env sessionKey : Option (List Char)) (clicked : Bool) : Bool :=
  clicked && generateBtnEnabled env sessionKey

/-- An activity record of the data model (section 3 of the spec). -/
structure Activity where
  time : List Char
  activity : List Char
  description : List Char
  duration : List Char
  cost : Nat
deriving DecidableEq

/-- A meal record of the data model. -/
structure Meal where
  meal : List Char
  restaurant : List Char
  cuisine : List Char
  cost : Nat
deriving DecidableEq

/-- A day plan of the data model. -/
structure DayPlan where
  day : Nat
  title : List Char
  activities : List Activity
  meals : List Meal
  estimated_cost : Nat
  travel_tips : List Char
deriving DecidableEq

/-- An itinerary of the data model (section 3 of the spec; field names
follow the JSON schema in the prompt of `src/main.py`). -/
structure Itinerary where
  destination : List Char
  overview : List Char
  daily_itineraries : List DayPlan
  famous_attractions : List (List Char)
  local_cuisine : List (List Char)
  travel_tips : List (List Char)
  packing_suggestions : List (List Char)
  total_estimated_cost : Nat
deriving DecidableEq

/-- Characters allowed in a well-formed itinerary string: nothing that
needs escaping inside a JSON string literal, and no backtick (a backtick
run could be mistaken for a code fence by the cleanup step). -/
def jsonSafeChar (c : Char) : Bool :=
  !(c = '"') && !(c = '\\') && !(c = btChar) && decide (31 < c.toNat)

/-- All characters of the string are safe. -/
def jsonSafeStr (s : List Char) : Bool := s.all jsonSafeChar

/-- Well-formedness of an activity's strings. -/
def activityWf (a : Activity) : Bool :=
  jsonSafeStr a.time && jsonSafeStr a.activity && jsonSafeStr a.description &&
    jsonSafeStr a.duration

/-- Well-formedness of a meal's strings. -/
def mealWf (m : Meal) : Bool :=
  jsonSafeStr m.meal && jsonSafeStr m.restaurant && jsonSafeStr m.cuisine

/-- Well-formedness of a day plan's strings. -/
def dayWf (d : DayPlan) : Bool :=
  jsonSafeStr d.title && jsonSafeStr d.travel_tips &&
    d.activities.all activityWf && d.meals.all mealWf

/-- A well-formed itinerary: every string it contains is a plain JSON-safe
string (no quote, backslash, control character or backtick). -/
def itineraryWf (it : Itinerary) : Bool :=
  jsonSafeStr it.overview && it.daily_itineraries.all dayWf &&
    it.famous_attractions.all jsonSafeStr && it.local_cuisine.all jsonSafeStr &&
    it.travel_tips.all jsonSafeStr && it.packing_suggestions.all jsonSafeStr

/-- Decimal digit as a character (for numbers below ten). -/
def digitChar : Nat → Char
  | 0 => '0' | 1 => '1' | 2 => '2' | 3 => '3' | 4 => '4'
  | 5 => '5' | 6 => '6' | 7 => '7' | 8 => '8' | _ => '9'

/-- Decimal rendering worker; the fuel bounds the number of digits. -/
def renderNatAux : Nat → Nat → List Char → List Char
  | 0, _, acc => acc
  | fuel + 1, n, acc =>
    if n < 10 then digitChar n :: acc
    else renderNatAux fuel (n / 10) (digitChar (n % 10) :: acc)

/-- Decimal rendering of a natural number, as Python prints an int. -/
def renderNat (n : Nat) : List Char := renderNatAux (n + 1) n []

/-- A JSON string literal around a safe string. -/
def qstr (s : List Char) : List Char := '"' :: s ++ ['"']

/-- A rendered `"key":value` member. -/
def renderKV (k : String) (v : List Char) : List Char := qstr (klist k) ++ ':' :: v

/-- Comma-join of rendered elements. -/
def commaJoin : List (List Char) → List Char
  | [] => []
  | [x] => x
  | x :: rest => x ++ ',' :: commaJoin rest

/-- A rendered JSON array. -/
def renderArr (elems : List (List Char)) : List Char := '[' :: commaJoin elems ++ [']']

/-- Serialization of an activity to the model's expected JSON shape (the
schema spelled out in the prompt of `src/main.py`, lines 104-110). -/
def renderActivity (a : Activity) : List Char :=
  '{' :: (renderKV "time" (qstr a.time) ++ ',' :: renderKV "activity" (qstr a.activity) ++
    ',' :: renderKV "description" (qstr a.description) ++
    ',' :: renderKV "duration" (qstr a.duration) ++
    ',' :: renderKV "cost" (renderNat a.cost)) ++ ['}']

/-- Serialization of a meal to the model's expected JSON shape. -/
def renderMeal (m : Meal) : List Char :=
  '{' :: (renderKV "meal" (qstr m.meal) ++ ',' :: renderKV "restaurant" (qstr m.restaurant) ++
    ',' :: renderKV "cuisine" (qstr m.cuisine) ++ ',' :: renderKV "cost" (renderNat m.cost)) ++ ['}']

/-- Serialization of a day plan to the model's expected JSON shape. -/
def renderDay (d : DayPlan) : List Char :=
  '{' :: (renderKV "day" (renderNat d.day) ++ ',' :: renderKV "title" (qstr d.title) ++
    ',' :: renderKV "activities" (renderArr (d.activities.map renderActivity)) ++
    ',' :: renderKV "meals" (renderArr (d.meals.map renderMeal)) ++
    ',' :: renderKV "estimated_cost" (renderNat d.estimated_cost) ++
    ',' :: renderKV "travel_tips" (qstr d.travel_tips)) ++ ['}']

/-- Serialization of an itinerary to the model's expected JSON shape (the
exact top-level schema in the prompt, lines 96-129 of `src/main.py`; the
shape has no `destination` key, which the normalizer injects itself). -/
def renderModelJson (it : Itinerary) : List Char :=
  '{' :: (renderKV "overview" (qstr it.overview) ++
    ',' :: renderKV "daily_itineraries" (renderArr (it.daily_itineraries.map renderDay)) ++
    ',' :: renderKV "famous_attractions" (renderArr (it.famous_attractions.map qstr)) ++
    ',' :: renderKV "local_cuisine" (renderArr (it.local_cuisine.map qstr)) ++
    ',' :: renderKV "travel_tips" (renderArr (it.travel_tips.map qstr)) ++
    ',' :: renderKV "packing_suggestions" (renderArr (it.packing_suggestions.map qstr)) ++
    ',' :: renderKV "total_estimated_cost" (renderNat it.total_estimated_cost)) ++ ['}']

/-- The JSON value of an activity after parsing. -/
def actJson (a : Activity) : Json :=
  Json.obj [(klist "time", Json.str a.time), (klist "activity", Json.str a.activity),
    (klist "description", Json.str a.description), (klist "duration", Json.str a.duration),
    (klist "cost", Json.num a.cost)]

/-- The JSON value of a meal after parsing. -/
def mealJson (m : Meal) : Json :=
  Json.obj [(klist "meal", Json.str m.meal), (klist "restaurant", Json.str m.restaurant),
    (klist "cuisine", Json.str m.cuisine), (klist "cost", Json.num m.cost)]

/-- The JSON value of a day plan after parsing. -/
def dayJson (d : DayPlan) : Json :=
  Json.obj [(klist "day", Json.num d.day), (klist "title", Json.str d.title),
    (klist "activities", Json.arr (d.activities.map actJson)),
    (klist "meals", Json.arr (d.meals.map mealJson)),
    (klist "estimated_cost", Json.num d.estimated_cost),
    (klist "travel_tips", Json.str d.travel_tips)]

/-- The model-shape fields of an itinerary as parsed JSON members. -/
def modelFields (it : Itinerary) : List (List Char × Json) :=
  [(klist "overview", Json.str it.overview),
   (klist "daily_itineraries", Json.arr (it.daily_itineraries.map dayJson)),
   (klist "famous_attractions", Json.arr (it.famous_attractions.map Json.str)),
   (klist "local_cuisine", Json.arr (it.local_cuisine.map Json.str)),
   (klist "travel_tips", Json.arr (it.travel_tips.map Json.str)),
   (klist "packing_suggestions", Json.arr (it.packing_suggestions.map Json.str)),
   (klist "total_estimated_cost", Json.num it.total_estimated_cost)]

/-- The JSON value the program stores for an itinerary: the model-shape
fields with the injected `destination` appended (a fresh dict key is
appended last in Python). -/
def itinStoredJson (it : Itinerary) : Json :=
  Json.obj (modelFields it ++ [(klist "destination", Json.str it.destination)])

/-- The per-person metric computation `total/num_people` of the metrics row
(`src/main.py` line 299).  Python raises `ZeroDivisionError` when
`num_people` is zero, which is the `none` case; otherwise the true-division
value is a rational. -/
def perPersonOf (total people : Nat) : Option ℚ :=
  if people = 0 then none else some ((total : ℚ) / (people : ℚ))

/-- The per-person metric as displayed from the session state: read
`st.session_state.itinerary`, read its `total_estimated_cost`, divide by
the current `num_people` widget value (`src/main.py` lines 285-299).
`none` covers both "nothing displayed" and a raised exception. -/
def displayPerPerson (s : AppState) (num_people : Nat) : Option ℚ :=
  match s.itinerary with
  | none => none
  | some data =>
    match jsonGetField data (klist "total_estimated_cost") with
    | some (Json.num total) => perPersonOf total num_people
    | _ => none

/-- Rendering failures observable in the results section. -/
inductive RenderError where
  | columnsSpecNotPositive : RenderError
  | divisionByZero : RenderError
deriving DecidableEq

/-- Embedding of `st.columns(n)` for an integer spec: Streamlit raises
`StreamlitAPIException` unless the spec is a positive integer. -/
def stColumns (n : Nat) : Except RenderError Nat :=
  if n = 0 then Except.error RenderError.columnsSpecNotPositive else Except.ok n

/-- One rendered meal column (`src/main.py` lines 328-334). -/
structure MealCell where
  mealName : List Char
  restaurant : List Char
  cuisine : List Char
  cost : Nat

/-- One rendered activity item (`src/main.py` lines 317-324). -/
structure ActivityItem where
  time : List Char
  name : List Char
  description : List Char
  duration : List Char
  cost : Nat

/-- The dining row of a day card: `meal_cols = st.columns(len(meals))`
then one markdown cell per meal (`src/main.py` lines 326-334). -/
def renderMealsSection (meals : List Meal) : Except RenderError (List MealCell) := do
  let _ ← stColumns meals.length
  Except.ok (meals.map fun m =>
    { mealName := m.meal, restaurant := m.restaurant, cuisine := m.cuisine, cost := m.cost })

/-- One rendered day card (`src/main.py` lines 310-337). -/
structure DayView where
  dayNumber : Nat
  title : List Char
  budget : Nat
  activityItems : List ActivityItem
  mealCells : List MealCell
  tips : List Char

/-- Render one day of the itinerary. -/
def renderDaySection (d : DayPlan) : Except RenderError DayView := do
  let cells ← renderMealsSection d.meals
  Except.ok
    { dayNumber := d.day, title := d.title, budget := d.estimated_cost,
      activityItems := d.activities.map fun a =>
        { time := a.time, name := a.activity, description := a.description,
          duration := a.duration, cost := a.cost },
      mealCells := cells, tips := d.travel_tips }

/-- Render all day cards in order; the first raised exception aborts the
script run, as in Streamlit. -/
def renderDaysSection : List DayPlan → Except RenderError (List DayView)
  | [] => Except.ok []
  | d :: rest => do
    let dv ← renderDaySection d
    let rest' ← renderDaysSection rest
    Except.ok (dv :: rest')

/-- The rendered results view (`src/main.py` lines 285-360). -/
structure ItineraryView where
  destinationHeader : List Char
  overviewBox : List Char
  totalCost : Nat
  perPerson : ℚ
  durationDays : Nat
  attractionsCount : Nat
  days : List DayView
  attractions : List (List Char)
  cuisineList : List (List Char)
  tipsList : List (List Char)
  packingList : List (List Char)

/-- Render the results section for a displayed itinerary: the metrics row
(including the per-person division) comes before the day cards, matching
statement order in `src/main.py`. -/
def renderItineraryView (it : Itinerary) (num_people num_days : Nat) :
    Except RenderError ItineraryView := do
  let pp ← match perPersonOf it.total_estimated_cost num_people with
    | none => Except.error RenderError.divisionByZero
    | some q => Except.ok q
  let dayViews ← renderDaysSection it.daily_itineraries
  Except.ok
    { destinationHeader := it.destination, overviewBox := it.overview,
      totalCost := it.total_estimated_cost, perPerson := pp, durationDays := num_days,
      attractionsCount := it.famous_attractions.length, days := dayViews,
      attractions := it.famous_attractions, cuisineList := it.local_cuisine,
      tipsList := it.travel_tips, packingList := it.packing_suggestions }

/-- Whether an `Except` computation succeeded. -/
def exceptOk {ε α : Type} : Except ε α → Bool
  | Except.ok _ => true
  | Except.error _ => false

/-- The text block built for one activity in the TXT export
(`src/main.py` lines 383-385). -/
def actText (a : Activity) : List Char :=
  klist "  " ++ a.time ++ klist " - " ++ a.activity ++ klist "\n" ++
    klist "    " ++ a.description ++ klist "\n"

/-- The text block built for one day in the TXT export
(`src/main.py` lines 380-386). -/
def dayText (d : DayPlan) : List Char :=
  klist "\nDAY " ++ renderNat d.day ++ klist ": " ++ d.title ++ klist "\n" ++
    klist "Budget: $" ++ renderNat d.estimated_cost ++ klist "\n\n" ++
    (d.activities.map actText).flatten ++ klist "\n"

/-- The full TXT export (`src/main.py` lines 377-386): header, overview,
total cost, then the day blocks; meals and the auxiliary lists never enter
this string. -/
def toTextExport (it : Itinerary) : List Char :=
  klist "AI-GENERATED ITINERARY: " ++ it.destination ++ klist "\n" ++
    List.replicate 60 '=' ++ klist "\n\n" ++
    klist "OVERVIEW:\n" ++ it.overview ++ klist "\n\n" ++
    klist "TOTAL COST: $" ++ renderNat it.total_estimated_cost ++ klist "\n\n" ++
    (it.daily_itineraries.map dayText).flatten

/-- The substrings `parts` occur in `s`, in order and without overlap. -/
def containsInOrder : List Char → List (List Char) → Prop
  | _, [] => True
  | s, p :: ps => ∃ x y, s = x ++ p ++ y ∧ containsInOrder y ps

/-- The ordered day-then-activity name parts of an itinerary: each day's
title followed by that day's activity names. -/
def dayParts (d : DayPlan) : List (List Char) :=
  d.title :: d.activities.map Activity.activity

/-- All title and activity-name parts of an itinerary in export order. -/
def orderedParts (it : Itinerary) : List (List Char) :=
  (it.daily_itineraries.map dayParts).flatten

/-- The itinerary with every day's meal list emptied; the TXT export does
not depend on meals, which is how "contains no meal entries" is stated. -/
def stripMeals (it : Itinerary) : Itinerary :=
  { it with daily_itineraries := it.daily_itineraries.map fun d => { d with meals := [] } }

/-- Fuel needed by the parser for one rendered day (used by the round-trip
proof; grows with the activity and meal counts). -/
def dayNeed (d : DayPlan) : Nat := 12 * d.activities.length + 10 * d.meals.length + 13

/-- Fuel needed by the parser for a whole rendered itinerary. -/
def itinNeed (it : Itinerary) : Nat :=
  ((it.daily_itineraries.map dayNeed).sum + it.daily_itineraries.length + 1) +
    (2 * it.famous_attractions.length + 1) + (2 * it.local_cuisine.length + 1) +
    (2 * it.travel_tips.length + 1) + (2 * it.packing_suggestions.length + 1) + 10

/-- First char of `rest` is not a digit (or `rest` is empty): the condition
under which a rendered number is tokenized exactly. -/
def stopsNum : List Char → Prop
  | [] => True
  | c :: _ => c.isDigit = false

/-- A small concrete itinerary used to witness the round-trip theorem. -/
def exItin : Itinerary :=
  ⟨klist "X", klist "Nice city",
    [⟨1, klist "Day one",
      [⟨klist "9 AM", klist "Walk", klist "Old town", klist "2 h", 5⟩],
      [⟨klist "lunch", klist "Cafe", klist "Local", 12⟩],
      40, klist "Wear shoes"⟩],
    [klist "Tower"], [klist "Stew"], [klist "Go early"], [klist "Hat"], 300⟩

/-! ## Helper lemmas -/

theorem containsInOrder_prepend (x s : List Char) (ps : List (List Char))
    (h : containsInOrder s ps) : containsInOrder (x ++ s) ps := by
  cases ps with
  | nil => trivial
  | cons p ps =>
    obtain ⟨u, v, huv, hrest⟩ := h
    exact ⟨x ++ u, v, by rw [huv]; simp [List.append_assoc], hrest⟩

theorem containsInOrder_extend (s t : List Char) (ps : List (List Char))
    (h : containsInOrder s ps) : containsInOrder (s ++ t) ps := by
  induction ps generalizing s with
  | nil => trivial
  | cons p ps ih =>
    obtain ⟨u, v, huv, hrest⟩ := h
    exact ⟨u, v ++ t, by rw [huv]; simp [List.append_assoc], ih v hrest⟩

theorem containsInOrder_append (a b : List Char) (ps qs : List (List Char))
    (ha : containsInOrder a ps) (hb : containsInOrder b qs) :
    containsInOrder (a ++ b) (ps ++ qs) := by
  induction ps generalizing a with
  | nil =>
    cases a with
    | nil => simpa using hb
    | cons c a' => exact containsInOrder_prepend _ _ _ hb
  | cons p ps ih =>
    obtain ⟨u, v, huv, hrest⟩ := ha
    exact ⟨u, v ++ b, by rw [huv]; simp [List.append_assoc], ih v hrest⟩

theorem containsInOrder_of_eq (s t : List Char) (ps : List (List Char))
    (h : containsInOrder t ps) (he : s = t) : containsInOrder s ps := he ▸ h

theorem containsInOrder_actText (a : Activity) :
    containsInOrder (actText a) [a.activity] := by
  refine ⟨klist "  " ++ a.time ++ klist " - ",
    klist "\n" ++ klist "    " ++ a.description ++ klist "\n", ?_, trivial⟩
  simp [actText, List.append_assoc]

theorem containsInOrder_actsFlatten (acts : List Activity) :
    containsInOrder ((acts.map actText).flatten) (acts.map Activity.activity) := by
  induction acts with
  | nil => trivial
  | cons a rest ih =>
    have := containsInOrder_append (actText a) ((rest.map actText).flatten)
      [a.activity] (rest.map Activity.activity) (containsInOrder_actText a) ih
    simpa using this

theorem containsInOrder_dayText (d : DayPlan) :
    containsInOrder (dayText d) (dayParts d) := by
  refine ⟨klist "\nDAY " ++ renderNat d.day ++ klist ": ",
    klist "\n" ++ klist "Budget: $" ++ renderNat d.estimated_cost ++ klist "\n\n" ++
      (d.activities.map actText).flatten ++ klist "\n", ?_, ?_⟩
  · simp [dayText, List.append_assoc]
  · refine containsInOrder_of_eq _
      ((klist "\n" ++ klist "Budget: $" ++ renderNat d.estimated_cost ++ klist "\n\n") ++
        ((d.activities.map actText).flatten ++ klist "\n")) _ ?_ (by simp [List.append_assoc])
    exact containsInOrder_prepend _ _ _
      (containsInOrder_extend _ _ _ (containsInOrder_actsFlatten d.activities))

theorem containsInOrder_daysFlatten (days : List DayPlan) :
    containsInOrder ((days.map dayText).flatten) ((days.map dayParts).flatten) := by
  induction days with
  | nil => trivial
  | cons d rest ih =>
    have := containsInOrder_append (dayText d) ((rest.map dayText).flatten)
      (dayParts d) ((rest.map dayParts).flatten) (containsInOrder_dayText d) ih
    simpa using this

/-! ## Claim theorems (first group) -/

/-- C2: every generation attempt that ends in an error (the model call
raised, or normalization failed) leaves the session state exactly as it
was — the prior itinerary, if any, is still the stored and displayed one —
and the status indicator becomes the error indicator. -/
theorem claim2_failed_generation_preserves_state (s : AppState) (destination : List Char)
    (resp : CallOutcome) (h : generateItineraryWithGemini resp destination = none) :
    runGeneration destination resp s = (s, GenStatus.failed) ∧
      displayedItinerary (runGeneration destination resp s).1 = displayedItinerary s := by
  unfold runGeneration
  rw [h]
  exact ⟨rfl, rfl⟩

theorem claim2_witness :
    generateItineraryWithGemini CallOutcome.transportError (klist "Paris") = none ∧
      runGeneration (klist "Paris") CallOutcome.transportError
          { itinerary := some (Json.num 7) } =
        ({ itinerary := some (Json.num 7) }, GenStatus.failed) :=
  ⟨rfl, (claim2_failed_generation_preserves_state
    { itinerary := some (Json.num 7) } (klist "Paris") CallOutcome.transportError rfl).1⟩

/-- C9: a submission with an empty destination or an empty interests list
is rejected with a visible error message, the session state is untouched,
and the Model Client is never invoked for that action. -/
theorem claim9_validation_blocks_model_call (destination : List Char)
    (interests : List (List Char)) (resp : CallOutcome) (s : AppState)
    (h : destination = [] ∨ interests = []) :
    (handleGenerateClick destination interests resp s).1 = s ∧
      (handleGenerateClick destination interests resp s).2.2 = false ∧
      ((handleGenerateClick destination interests resp s).2.1 =
          SubmitOutcome.errorNoDestination ∨
        (handleGenerateClick destination interests resp s).2.1 =
          SubmitOutcome.errorNoInterests) := by
  rcases h with h | h
  · subst h
    exact ⟨rfl, rfl, Or.inl rfl⟩
  · subst h
    by_cases hd : destination.isEmpty
    · simp [handleGenerateClick, hd]
    · simp [handleGenerateClick, hd]

theorem claim9_witness :
    ((klist "") = [] ∨ ([] : List (List Char)) = []) ∧
      ((handleGenerateClick (klist "") [klist "Food"] CallOutcome.transportError
          { itinerary := none }).1 = { itinerary := none } ∧
        (handleGenerateClick (klist "") [klist "Food"] CallOutcome.transportError
          { itinerary := none }).2.2 = false ∧
        ((handleGenerateClick (klist "") [klist "Food"] CallOutcome.transportError
            { itinerary := none }).2.1 = SubmitOutcome.errorNoDestination ∨
          (handleGenerateClick (klist "") [klist "Food"] CallOutcome.transportError
            { itinerary := none }).2.1 = SubmitOutcome.errorNoInterests)) :=
  ⟨Or.inl rfl, claim9_validation_blocks_model_call (klist "") [klist "Food"]
    CallOutcome.transportError { itinerary := none } (Or.inl rfl)⟩

/-- C10: credential resolution treats the empty string as an absent key:
the API reports configured exactly when the environment variable or the
session key is a non-empty string; an empty environment value behaves like
an unset one; and when the API is not configured the generate button is
disabled, so no generation can start with an empty credential. -/
theorem claim10_credential_resolution (env sessionKey : Option (List Char)) (clicked : Bool) :
    (setupGeminiApi env sessionKey = true ↔
      env.getD [] ≠ [] ∨ sessionKey.getD [] ≠ []) ∧
      setupGeminiApi (some []) sessionKey = setupGeminiApi none sessionKey ∧
      (setupGeminiApi env sessionKey = false →
        generationStarts env sessionKey clicked = false) := by
  refine ⟨?_, ?_, ?_⟩
  · rcases env with _ | e
    · rcases sessionKey with _ | k
      · simp [setupGeminiApi, resolveApiKey]
      · cases k with
        | nil => simp [setupGeminiApi, resolveApiKey]
        | cons c k' => simp [setupGeminiApi, resolveApiKey]
    · cases e with
      | nil =>
        rcases sessionKey with _ | k
        · simp [setupGeminiApi, resolveApiKey]
        · cases k with
          | nil => simp [setupGeminiApi, resolveApiKey]
          | cons c k' => simp [setupGeminiApi, resolveApiKey]
      | cons c e' => simp [setupGeminiApi, resolveApiKey]
  · rfl
  · intro hfail
    simp [generationStarts, generateBtnEnabled, hfail]

/-- C6 counterexample: the claim says the per-person computation is
well-defined (no division by zero) even when the people value is 0; in the
code `total/num_people` has no guard, and at `num_people = 0` it raises
`ZeroDivisionError` — the embedded metric has no value there. -/
theorem claim6_counterexample : perPersonOf 100 0 = none := rfl

/-- C6 (amended): the renderer's per-person computation has no guard
against a zero people count — division by zero would raise — but for every
people value of at least 1 (all the form can produce, its floor being 1)
the metric is well-defined and equals total divided by people. -/
theorem claim6_no_zero_guard (total people : Nat) (h : 1 ≤ people) :
    perPersonOf total people = some ((total : ℚ) / (people : ℚ)) := by
  unfold perPersonOf
  rw [if_neg (by omega)]

theorem claim6_witness :
    1 ≤ 2 ∧ perPersonOf 100 2 = some ((100 : ℚ) / (2 : ℚ)) :=
  ⟨by decide, claim6_no_zero_guard 100 2 (by decide)⟩

/-- C5: the claim says rendering an itinerary with an empty meals list
succeeds and shows no meal entries; in the code the dining row starts with
`st.columns(len(day_data["meals"]))`, and Streamlit raises
`StreamlitAPIException` for the spec `0`, so rendering such an itinerary
fails instead.  This theorem evaluates the renderer at the failing input. -/
theorem claim5_empty_meals_crashes_rendering :
    renderItineraryView
      ⟨klist "Lisbon", klist "ov",
        [⟨1, klist "Day one",
          [⟨klist "9 AM", klist "Walk", klist "d", klist "2 h", 5⟩],
          [], 10, klist "t"⟩],
        [klist "a"], [], [], [], 100⟩ 2 3 =
      Except.error RenderError.columnsSpecNotPositive := rfl

/-- C8: the TXT export contains every day's title and every activity's
name, in day then activity order, and contains no meal entries: the export
text does not depend on the meal lists at all (emptying every meal list
leaves the export unchanged — no restaurant, cuisine, or meal cost can
appear in it). -/
theorem claim8_toText_order_and_no_meals (it : Itinerary) :
    containsInOrder (toTextExport it) (orderedParts it) ∧
      toTextExport (stripMeals it) = toTextExport it := by
  constructor
  · refine containsInOrder_of_eq _
      ((klist "AI-GENERATED ITINERARY: " ++ it.destination ++ klist "\n" ++
          List.replicate 60 '=' ++ klist "\n\n" ++ klist "OVERVIEW:\n" ++ it.overview ++
          klist "\n\n" ++ klist "TOTAL COST: $" ++ renderNat it.total_estimated_cost ++
          klist "\n\n") ++
        (it.daily_itineraries.map dayText).flatten) _ ?_
      (by simp [toTextExport, orderedParts, List.append_assoc])
    exact containsInOrder_prepend _ _ _ (containsInOrder_daysFlatten it.daily_itineraries)
  · unfold toTextExport stripMeals
    simp only [List.map_map]
    rfl

/-- C1 counterexample: the claim says the normalizer checks every required
top-level field and fails with a schema error when one is missing; but the
response text consisting of an empty JSON object — which lacks every
required field, `daily_itineraries` included — normalizes successfully,
producing an object holding only the injected destination. -/
theorem claim1_counterexample :
    normalizeResponse (klist "\x7b\x7d") (klist "Paris") =
      Except.ok (Json.obj [(klist "destination", Json.str (klist "Paris"))]) := rfl

/-- C1 (amended): the normalizer performs no schema validation at all.
Any response whose cleaned text parses as a JSON object is accepted as-is
with only the destination injected — even when every required field
(such as `daily_itineraries`) is absent — and no field-kind checks or
numeric-string coercions are performed; missing fields surface only later,
at render time. -/
theorem claim1_no_validation (raw destination : List Char)
    (fs : List (List Char × Json))
    (hparse : parseJson (cleanResponse raw) = some (Json.obj fs))
    (_hmissing : ∀ kv ∈ fs, kv.1 ≠ klist "daily_itineraries") :
    normalizeResponse raw destination =
      Except.ok (Json.obj (setFields fs (klist "destination") (Json.str destination))) := by
  unfold normalizeResponse
  simp only []
  rw [hparse]
  rfl

theorem claim1_witness :
    parseJson (cleanResponse (klist "\x7b\"a\":1\x7d")) =
        some (Json.obj [(klist "a", Json.num 1)]) ∧
      (∀ kv ∈ [(klist "a", Json.num 1)], kv.1 ≠ klist "daily_itineraries") ∧
      normalizeResponse (klist "\x7b\"a\":1\x7d") (klist "Rome") =
        Except.ok (Json.obj (setFields [(klist "a", Json.num 1)] (klist "destination")
          (Json.str (klist "Rome")))) :=
  ⟨rfl, by decide, claim1_no_validation (klist "\x7b\"a\":1\x7d") (klist "Rome")
    [(klist "a", Json.num 1)] rfl (by decide)⟩

/-- C4 counterexample: the claim says the session state also holds the
TripRequest that produced the itinerary and that the displayed per-person
cost divides by that stored request's people value.  In the code the
session stores only the itinerary (`st.session_state.itinerary`), and the
metric divides by the current `num_people` widget value.  Here a
generation performed while the people widget read 2 (the widget value
enters only the prompt, nothing of it is stored) is displayed after the
widget was moved to 4: the shown per-person cost is 100/4, not the
claimed 100/2. -/
theorem claim4_counterexample :
    runGeneration (klist "Lisbon")
        (CallOutcome.ok (klist "\x7b\"total_estimated_cost\":100\x7d")) ⟨none⟩ =
      (⟨some (Json.obj [(klist "total_estimated_cost", Json.num 100),
        (klist "destination", Json.str (klist "Lisbon"))])⟩, GenStatus.complete) ∧
      displayPerPerson ⟨some (Json.obj [(klist "total_estimated_cost", Json.num 100),
        (klist "destination", Json.str (klist "Lisbon"))])⟩ 4 ≠ some ((100 : ℚ) / 2) := by
  refine ⟨rfl, ?_⟩
  intro h
  have h2 : perPersonOf 100 4 = some ((100 : ℚ) / 2) := h
  have h3 : ((100 : ℚ) / 4) = (100 : ℚ) / 2 := by
    have h4 : some ((100 : ℚ) / 4) = some ((100 : ℚ) / 2) := by
      rw [← h2]; unfold perPersonOf; norm_num
    exact Option.some.inj h4
  norm_num at h3

/-- C4 (amended): the session state stores only the itinerary — the
`AppState` record has no TripRequest field, mirroring the code, where
only `st.session_state.itinerary` is ever assigned — and the displayed
per-person cost equals the stored `total_estimated_cost` divided by the
current `num_people` widget value, which agrees with the producing
request's people only as long as the widget has not been moved since
generation. -/
theorem claim4_per_person_uses_current_widget (j : Json) (total p : Nat)
    (hp : p ≠ 0)
    (ht : jsonGetField j (klist "total_estimated_cost") = some (Json.num total)) :
    displayPerPerson { itinerary := some j } p = some ((total : ℚ) / (p : ℚ)) := by
  have h1 : displayPerPerson { itinerary := some j } p = perPersonOf total p := by
    unfold displayPerPerson
    simp only []
    rw [ht]
  rw [h1]
  unfold perPersonOf
  rw [if_neg hp]

theorem claim4_witness :
    (4 : Nat) ≠ 0 ∧
      jsonGetField (Json.obj [(klist "total_estimated_cost", Json.num 100)])
          (klist "total_estimated_cost") = some (Json.num 100) ∧
      displayPerPerson
          { itinerary := some (Json.obj [(klist "total_estimated_cost", Json.num 100)]) } 4 =
        some ((100 : ℚ) / (4 : ℚ)) :=
  ⟨by decide, rfl, claim4_per_person_uses_current_widget
    (Json.obj [(klist "total_estimated_cost", Json.num 100)]) 100 4 (by decide) rfl⟩

/-! ## Text-processing lemmas for the fence-stripping cleanup -/

theorem isPrefixOf_exists (l s : List Char) :
    l.isPrefixOf s = true ↔ ∃ t, s = l ++ t := by
  rw [ List.isPrefixOf_iff_prefix]
  exact ⟨fun ⟨t, h⟩ => ⟨t, h.symm⟩, fun ⟨t, h⟩ => ⟨t, h.symm⟩⟩

theorem isPrefixOf_false_of_not_exists (l s : List Char)
    (h : ¬ ∃ t, s = l ++ t) : l.isPrefixOf s = false := by
  rcases hb : l.isPrefixOf s with _ | _
  · rfl
  · exact absurd ((isPrefixOf_exists l s).mp hb) h

theorem occursIn_cons_iff (sep : List Char) (c : Char) (s : List Char) :
    occursIn sep (c :: s) ↔ (∃ t, c :: s = sep ++ t) ∨ occursIn sep s := by
  constructor
  · rintro ⟨x, y, hxy⟩
    cases x with
    | nil => exact Or.inl ⟨y, by simpa using hxy⟩
    | cons c' x' =>
      simp only [List.cons_append, List.cons.injEq] at hxy
      exact Or.inr ⟨x', y, hxy.2⟩
  · rintro (⟨t, ht⟩ | ⟨x, y, hxy⟩)
    · exact ⟨[], t, by simpa using ht⟩
    · exact ⟨c :: x, y, by simp [hxy]⟩

theorem hasOccur_iff_occursIn (sep : List Char) (hsep : sep ≠ []) (s : List Char) :
    hasOccur sep s = true ↔ occursIn sep s := by
  induction s with
  | nil =>
    simp only [hasOccur, List.isEmpty_iff]
    constructor
    · intro h; exact absurd h hsep
    · rintro ⟨x, y, hxy⟩
      have h0 : x ++ sep ++ y = [] := hxy.symm
      simp only [List.append_eq_nil] at h0
      exact absurd h0.1.2 hsep
  | cons c rest ih =>
    simp only [hasOccur, Bool.or_eq_true, occursIn_cons_iff, ih]
    rw [isPrefixOf_exists]

theorem hasOccur_false_of_not_occursIn (sep : List Char) (hsep : sep ≠ [])
    (s : List Char) (h : ¬ occursIn sep s) : hasOccur sep s = false := by
  rcases hb : hasOccur sep s with _ | _
  · rfl
  · exact absurd ((hasOccur_iff_occursIn sep hsep s).mp hb) h

theorem occursIn_append_outer (sep t u v : List Char) (h : occursIn sep t) :
    occursIn sep (u ++ t ++ v) := by
  obtain ⟨x, y, hxy⟩ := h
  exact ⟨u ++ x, y ++ v, by simp [hxy, List.append_assoc]⟩

theorem occursIn_of_occursIn_longer (pre tail s : List Char)
    (h : occursIn (pre ++ tail) s) : occursIn pre s := by
  obtain ⟨x, y, hxy⟩ := h
  exact ⟨x, tail ++ y, by simp [hxy, List.append_assoc]⟩

theorem occursIn_reverse_iff (sep s : List Char) :
    occursIn sep.reverse s.reverse ↔ occursIn sep s := by
  constructor
  · rintro ⟨x, y, hxy⟩
    refine ⟨y.reverse, x.reverse, ?_⟩
    have := congrArg List.reverse hxy
    simpa [List.reverse_append, List.append_assoc] using this
  · rintro ⟨x, y, hxy⟩
    exact ⟨y.reverse, x.reverse, by simp [hxy, List.reverse_append, List.append_assoc]⟩

theorem append_singleton_inj (u v : List Char) (a b : Char)
    (h : u ++ [a] = v ++ [b]) : u = v ∧ a = b := by
  have hr := congrArg List.reverse h
  simp only [List.reverse_append, List.reverse_cons, List.reverse_nil, List.nil_append,
    List.singleton_append, List.cons.injEq] at hr
  exact ⟨by simpa using congrArg List.reverse hr.2, hr.1⟩

theorem occursIn_concat_elim (sep l : List Char) (b : Char) (hsep : sep ≠ [])
    (hb : b ∉ sep) (h : occursIn sep (l ++ [b])) : occursIn sep l := by
  obtain ⟨x, y, hxy⟩ := h
  rcases List.eq_nil_or_concat y with hy | ⟨y', b', hy⟩
  · subst hy
    rcases List.eq_nil_or_concat sep with hs | ⟨s', slast, hs⟩
    · exact absurd hs hsep
    · subst hs
      simp only [List.concat_eq_append, List.append_nil, ← List.append_assoc] at hxy
      obtain ⟨_, hb'⟩ := append_singleton_inj l (x ++ s') b slast hxy
      exact absurd (by simp [hb', List.concat_eq_append]) hb
  · subst hy
    simp only [List.concat_eq_append, ← List.append_assoc] at hxy
    obtain ⟨hl, _⟩ := append_singleton_inj l ((x ++ sep) ++ y') b b' hxy
    exact ⟨x, y', by simpa [List.append_assoc] using hl⟩

theorem pyStrip_cons_ws (c : Char) (s : List Char) (hc : isPyWs c = true) :
    pyStrip (c :: s) = pyStrip s := by
  unfold pyStrip
  rw [List.dropWhile_cons_of_pos hc]

theorem pyStrip_concat_ws (s : List Char) (c : Char) (hc : isPyWs c = true) :
    pyStrip (s ++ [c]) = pyStrip s := by
  unfold pyStrip
  cases hd : s.dropWhile isPyWs with
  | nil => simp [List.dropWhile_append, hd, hc]
  | cons a as => simp [List.dropWhile_append, hd, hc, List.reverse_append]

theorem pyStrip_eq_self (a b : Char) (xs : List Char)
    (ha : isPyWs a = false) (hb : isPyWs b = false) :
    pyStrip (a :: (xs ++ [b])) = a :: (xs ++ [b]) := by
  unfold pyStrip
  rw [List.dropWhile_cons_of_neg (by simp [ha])]
  have h1 : (a :: (xs ++ [b])).reverse = b :: (xs.reverse ++ [a]) := by
    simp [List.reverse_append]
  rw [h1, List.dropWhile_cons_of_neg (by simp [hb])]
  have h2 : (b :: (xs.reverse ++ [a])).reverse = a :: (xs ++ [b]) := by
    simp [List.reverse_append]
  rw [h2]

theorem pySplitGo_no_occur (sep : List Char) :
    ∀ f acc s, ¬ occursIn sep s → pySplitGo sep f acc s = [acc.reverse ++ s] := by
  intro f
  induction f with
  | zero =>
    intro acc s _
    cases s with
    | nil => simp [pySplitGo]
    | cons c rest => simp [pySplitGo]
  | succ f ih =>
    intro acc s h
    cases s with
    | nil => simp [pySplitGo]
    | cons c rest =>
      have hp : sep.isPrefixOf (c :: rest) = false := by
        apply isPrefixOf_false_of_not_exists
        rintro ⟨t, ht⟩
        exact h ⟨[], t, by simpa using ht⟩
      have hrest : ¬ occursIn sep rest := fun hocc =>
        h ((occursIn_cons_iff sep c rest).mpr (Or.inr hocc))
      simp only [pySplitGo]
      rw [hp]
      simp only [Bool.false_eq_true, if_false]
      rw [ih (c :: acc) rest hrest]
      simp

theorem pySplitGo_through (sep : List Char) :
    ∀ a f acc tail,
      (∀ x a₂, a = x ++ a₂ → a₂ ≠ [] → ¬ ∃ t, a₂ ++ tail = sep ++ t) →
      pySplitGo sep (a.length + f) acc (a ++ tail) = pySplitGo sep f (a.reverse ++ acc) tail := by
  intro a
  induction a with
  | nil =>
    intro f acc tail _
    simp
  | cons c a' ih =>
    intro f acc tail h
    have hp : sep.isPrefixOf (c :: (a' ++ tail)) = false := by
      apply isPrefixOf_false_of_not_exists
      rintro ⟨t, ht⟩
      exact h [] (c :: a') rfl (by simp) ⟨t, by simpa using ht⟩
    have hl : (c :: a').length + f = (a'.length + f) + 1 := by
      simp [List.length_cons]
      omega
    rw [List.cons_append, hl]
    simp only [pySplitGo]
    rw [hp]
    simp only [Bool.false_eq_true, if_false]
    rw [ih f (c :: acc) tail (fun x a₂ hx hne => h (c :: x) a₂ (by simp [hx]) hne)]
    simp [List.append_assoc]

theorem pySplitGo_at_head (sep : List Char) (hsep : sep ≠ []) :
    ∀ f acc s, pySplitGo sep (f + 1) acc (sep ++ s) = acc.reverse :: pySplitGo sep f [] s := by
  intro f acc s
  rcases hsepd : sep with _ | ⟨b, sep'⟩
  · exact absurd hsepd hsep
  · simp only [List.cons_append, pySplitGo]
    rw [if_pos]
    · congr 1
      have hlen : (b :: sep').length - 1 = sep'.length := by simp
      rw [hlen]
      congr 1
      simp
    · rw [isPrefixOf_exists]
      exact ⟨s, by simp⟩

theorem json7_eq : json7 = btChar :: btChar :: btChar :: 'j' :: 's' :: 'o' :: 'n' :: [] := by decide

theorem no_json7_in_tail (c : List Char) (hc : ¬ occursIn bt3 c) :
    ¬ occursIn json7 ('\n' :: (c ++ '\n' :: bt3)) := by
  intro h
  rw [← occursIn_reverse_iff] at h
  have hrev : ('\n' :: (c ++ '\n' :: bt3)).reverse =
      btChar :: btChar :: btChar :: '\n' :: (c.reverse ++ ['\n']) := by
    simp [bt3, List.reverse_append]
  have hrev7 : json7.reverse = 'n' :: 'o' :: 's' :: 'j' :: bt3 := by decide
  rw [hrev, hrev7] at h
  rcases (occursIn_cons_iff _ _ _).mp h with ⟨t, ht⟩ | h
  · simp only [List.cons_append, List.cons.injEq] at ht
    exact absurd ht.1 (by decide)
  rcases (occursIn_cons_iff _ _ _).mp h with ⟨t, ht⟩ | h
  · simp only [List.cons_append, List.cons.injEq] at ht
    exact absurd ht.1 (by decide)
  rcases (occursIn_cons_iff _ _ _).mp h with ⟨t, ht⟩ | h
  · simp only [List.cons_append, List.cons.injEq] at ht
    exact absurd ht.1 (by decide)
  rcases (occursIn_cons_iff _ _ _).mp h with ⟨t, ht⟩ | h
  · simp only [List.cons_append, List.cons.injEq] at ht
    exact absurd ht.1 (by decide)
  have h2 : occursIn bt3 (c.reverse ++ ['\n']) := by
    obtain ⟨x, y, hxy⟩ := h
    exact ⟨x ++ ['n', 'o', 's', 'j'], y, by
      rw [hxy]; simp [List.append_assoc]⟩
  have h3 : occursIn bt3 c.reverse :=
    occursIn_concat_elim bt3 c.reverse '\n' (by decide) (by decide) h2
  exact hc ((occursIn_reverse_iff bt3 c).mp h3)

theorem no_bt3_in_wrapped (c : List Char) (hc : ¬ occursIn bt3 c) :
    ¬ occursIn bt3 ('\n' :: (c ++ ['\n'])) := by
  intro h
  rcases (occursIn_cons_iff _ _ _).mp h with ⟨t, ht⟩ | h2
  · simp only [bt3, List.cons_append, List.cons.injEq] at ht
    exact absurd ht.1 (by decide)
  · exact hc (occursIn_concat_elim bt3 c '\n' (by decide) (by decide) h2)

theorem no_bt3_cross (c : List Char) (hc : ¬ occursIn bt3 c) :
    ∀ x a₂, ('\n' :: (c ++ ['\n'])) = x ++ a₂ → a₂ ≠ [] → ¬ ∃ t, a₂ ++ bt3 = bt3 ++ t := by
  intro x a₂ hx hne hex
  obtain ⟨t, ht⟩ := hex
  match a₂, hne with
  | [u], _ =>
    have hu : u = btChar := by
      simp only [bt3, List.cons_append, List.nil_append, List.cons.injEq] at ht
      exact ht.1
    have hx' : ('\n' :: c) ++ ['\n'] = x ++ [u] := by simpa using hx
    obtain ⟨_, hnl⟩ := append_singleton_inj ('\n' :: c) x '\n' u hx'
    rw [hu] at hnl
    exact absurd hnl.symm (by decide)
  | [u, v], _ =>
    have hv : v = btChar := by
      simp only [bt3, List.cons_append, List.nil_append, List.cons.injEq] at ht
      exact ht.2.1
    have hx' : ('\n' :: c) ++ ['\n'] = (x ++ [u]) ++ [v] := by
      simpa [List.append_assoc] using hx
    obtain ⟨_, hnl⟩ := append_singleton_inj ('\n' :: c) (x ++ [u]) '\n' v hx'
    rw [hv] at hnl
    exact absurd hnl.symm (by decide)
  | u :: v :: w :: r, _ =>
    have huvw : u = btChar ∧ v = btChar ∧ w = btChar := by
      simp only [bt3, List.cons_append, List.cons.injEq] at ht
      exact ⟨ht.1, ht.2.1, ht.2.2.1⟩
    have hoc : occursIn bt3 ('\n' :: (c ++ ['\n'])) := by
      refine ⟨x, r, ?_⟩
      rw [hx, huvw.1, huvw.2.1, huvw.2.2]
      simp [bt3]
    exact no_bt3_in_wrapped c hc hoc

theorem pySplitGo_sep_only (sep : List Char) (hsep : sep ≠ []) (f : Nat) (acc : List Char) :
    pySplitGo sep (f + 1) acc sep = [acc.reverse, []] := by
  have h := pySplitGo_at_head sep hsep f acc []
  rw [List.append_nil] at h
  rw [h]
  simp [pySplitGo]

theorem pyStrip_decompose (s : List Char) : ∃ u v, s = u ++ pyStrip s ++ v := by
  refine ⟨s.takeWhile isPyWs, ((s.dropWhile isPyWs).reverse.takeWhile isPyWs).reverse, ?_⟩
  unfold pyStrip
  conv_lhs => rw [← List.takeWhile_append_dropWhile isPyWs s]
  rw [List.append_assoc]
  congr 1
  conv_lhs => rw [← List.reverse_reverse (s.dropWhile isPyWs)]
  conv_lhs => rw [← List.takeWhile_append_dropWhile isPyWs (s.dropWhile isPyWs).reverse]
  rw [List.reverse_append]

theorem cleanResponse_no_fence (c : List Char) (hc : ¬ occursIn bt3 c) :
    cleanResponse c = pyStrip c := by
  have hno3 : ¬ occursIn bt3 (pyStrip c) := by
    intro hocc
    obtain ⟨u, v, huv⟩ := pyStrip_decompose c
    exact hc (huv ▸ occursIn_append_outer bt3 (pyStrip c) u v hocc)
  have hno7 : ¬ occursIn json7 (pyStrip c) := by
    intro hocc
    exact hno3 (occursIn_of_occursIn_longer bt3 (klist "json") (pyStrip c) hocc)
  unfold cleanResponse
  simp only []
  rw [hasOccur_false_of_not_occursIn json7 (by decide) _ hno7]
  rw [hasOccur_false_of_not_occursIn bt3 (by decide) _ hno3]
  simp

theorem cleanResponse_fenced (c : List Char) (hc : ¬ occursIn bt3 c) :
    cleanResponse (fenceWrap c) = pyStrip c := by
  have hshape : fenceWrap c =
      btChar :: ((btChar :: btChar :: 'j' :: 's' :: 'o' :: 'n' :: '\n' ::
        (c ++ ['\n', btChar, btChar])) ++ [btChar]) := by
    rw [fenceWrap, json7_eq]
    simp [bt3, List.append_assoc]
  have hstrip : pyStrip (fenceWrap c) = fenceWrap c := by
    rw [hshape]
    exact pyStrip_eq_self btChar btChar _ (by decide) (by decide)
  have hfw : fenceWrap c = json7 ++ ('\n' :: (c ++ '\n' :: bt3)) := by simp [fenceWrap]
  have hocc7 : occursIn json7 (fenceWrap c) := ⟨[], '\n' :: (c ++ '\n' :: bt3), by
    rw [hfw]; simp⟩
  have h7len : json7.length = 7 := by decide
  have hsplit1 : pySplit json7 (fenceWrap c) = [[], '\n' :: (c ++ '\n' :: bt3)] := by
    rw [pySplit, hfw]
    have hlen : (json7 ++ ('\n' :: (c ++ '\n' :: bt3))).length =
        (6 + ('\n' :: (c ++ '\n' :: bt3)).length) + 1 := by
      rw [List.length_append, h7len]
      omega
    rw [hlen, pySplitGo_at_head json7 (by decide)]
    rw [pySplitGo_no_occur json7 _ _ _ (no_json7_in_tail c hc)]
    simp
  have hsplit2 : pySplit bt3 ('\n' :: (c ++ '\n' :: bt3)) =
      [('\n' :: (c ++ ['\n'])), []] := by
    have ha : '\n' :: (c ++ '\n' :: bt3) = ('\n' :: (c ++ ['\n'])) ++ bt3 := by
      simp [List.append_assoc]
    rw [pySplit, ha]
    have hlen : ((('\n' :: (c ++ ['\n'])) ++ bt3)).length =
        ('\n' :: (c ++ ['\n'])).length + 3 := by
      rw [List.length_append]
      simp [bt3]
    rw [hlen, pySplitGo_through bt3 _ 3 [] bt3 (no_bt3_cross c hc)]
    rw [show (3 : Nat) = 2 + 1 from rfl, pySplitGo_sep_only bt3 (by decide)]
    simp
  unfold cleanResponse
  simp only []
  rw [hstrip]
  rw [(hasOccur_iff_occursIn json7 (by decide) _).mpr hocc7]
  rw [if_pos rfl]
  rw [hsplit1]
  have hget1 : getPart [[], '\n' :: (c ++ '\n' :: bt3)] 1 = '\n' :: (c ++ '\n' :: bt3) := rfl
  rw [hget1, hsplit2]
  have hget0 : getPart [('\n' :: (c ++ ['\n'])), []] 0 = '\n' :: (c ++ ['\n']) := rfl
  rw [hget0]
  rw [show '\n' :: (c ++ ['\n']) = '\n' :: (c ++ ['\n']) from rfl]
  rw [pyStrip_cons_ws '\n' (c ++ ['\n']) (by decide)]
  rw [pyStrip_concat_ws c '\n' (by decide)]

/-- C7 counterexample: the claim quantifies over every inner content
string, but when the content itself contains fence markers the cleanup
extracts different segments from the fenced and the bare text.  For the
content consisting of one JSON object, a stray json fence marker, a second
JSON object and a closing marker, the fenced text normalizes to the first
object while the bare text normalizes to the second, so the two results
differ. -/
theorem claim7_counterexample :
    normalizeResponse (fenceWrap (klist "\x7b\"a\":1\x7d```json\x7b\"b\":2\x7d```x"))
        (klist "X") ≠
      normalizeResponse (klist "\x7b\"a\":1\x7d```json\x7b\"b\":2\x7d```x") (klist "X") := by
  intro h
  have h2 : some (Json.num 1) = (none : Option Json) := by
    calc some (Json.num 1)
        = (normalizeResponse (fenceWrap (klist "\x7b\"a\":1\x7d```json\x7b\"b\":2\x7d```x"))
            (klist "X")).toOption.bind (fun j => jsonGetField j (klist "a")) := by rfl
      _ = (normalizeResponse (klist "\x7b\"a\":1\x7d```json\x7b\"b\":2\x7d```x")
            (klist "X")).toOption.bind (fun j => jsonGetField j (klist "a")) := by rw [h]
      _ = none := by rfl
  exact Option.noConfusion h2

/-- C7 (amended): for every inner content string that contains no fence
marker (no three-backtick run), normalizing the fenced text consisting of
a json code fence around that content and normalizing the bare content
produce the same normalization result (the bare text is stripped by the
normalizer itself, so bare and bare-trimmed agree). -/
theorem claim7_fence_equivalence (c destination : List Char)
    (hc : hasOccur bt3 c = false) :
    normalizeResponse (fenceWrap c) destination = normalizeResponse c destination := by
  have hocc : ¬ occursIn bt3 c := by
    intro h
    have hb := (hasOccur_iff_occursIn bt3 (by decide) c).mpr h
    rw [hc] at hb
    exact Bool.noConfusion hb
  have h1 : cleanResponse (fenceWrap c) = pyStrip c := cleanResponse_fenced c hocc
  have h2 : cleanResponse c = pyStrip c := cleanResponse_no_fence c hocc
  unfold normalizeResponse
  rw [h1, h2]

theorem claim7_witness :
    hasOccur bt3 (klist "\x7b\"a\":1\x7d") = false ∧
      normalizeResponse (fenceWrap (klist "\x7b\"a\":1\x7d")) (klist "X") =
        normalizeResponse (klist "\x7b\"a\":1\x7d") (klist "X") :=
  ⟨rfl, claim7_fence_equivalence (klist "\x7b\"a\":1\x7d") (klist "X") rfl⟩

theorem skipWs_not_ws (c : Char) (s : List Char) (h : isJsonWs c = false) :
    skipWs (c :: s) = c :: s := by
  simp [skipWs, h]

theorem parseStringBody_complete (s : List Char) (rest : List Char)
    (h : ∀ ch ∈ s, ch ≠ '"' ∧ ch ≠ '\\') :
    parseStringBody (s ++ '"' :: rest) = some (s, rest) := by
  induction s with
  | nil => simp [parseStringBody]
  | cons c s' ih =>
    have hc := h c (by simp)
    simp only [List.cons_append, parseStringBody, List.append_eq]
    rw [if_neg hc.1, if_neg hc.2]
    rw [ih (fun ch hch => h ch (by simp [hch]))]

theorem parseF_value_str (f : Nat) (s rest : List Char)
    (h : ∀ ch ∈ s, ch ≠ '"' ∧ ch ≠ '\\') :
    parseF (f + 1) PMode.value (qstr s ++ rest) = some (.val (.str s), rest) := by
  have hshape : qstr s ++ rest = '"' :: (s ++ '"' :: rest) := by
    simp [qstr]
  rw [hshape]
  simp only [parseF]
  rw [skipWs_not_ws _ _ (by decide)]
  simp only [reduceIte]
  rw [parseStringBody_complete s rest h]

theorem digitChar_isDigit (d : Nat) : (digitChar d).isDigit = true := by
  unfold digitChar
  split <;> decide

theorem digitChar_toNat (d : Nat) (hd : d < 10) : (digitChar d).toNat = 48 + d := by
  interval_cases d <;> decide

theorem renderNatAux_acc : ∀ n f acc, n < f →
    renderNatAux f n acc = renderNat n ++ acc := by
  intro n
  induction n using Nat.strong_induction_on with
  | _ n ih =>
    intro f acc hf
    match f, hf with
    | f' + 1, _ =>
      by_cases h10 : n < 10
      · simp [renderNatAux, renderNat, h10]
      · have hdiv : n / 10 < n := Nat.div_lt_self (by omega) (by omega)
        simp only [renderNatAux, if_neg h10, renderNat]
        rw [ih (n / 10) hdiv f' (digitChar (n % 10) :: acc) (by omega)]
        rw [ih (n / 10) hdiv n [digitChar (n % 10)] (by omega)]
        simp [List.append_assoc]

example : True := trivial

theorem digitsToNat_concat (ds : List Char) (c : Char) :
    digitsToNat (ds ++ [c]) = digitsToNat ds * 10 + (c.toNat - 48) := by
  simp [digitsToNat, List.foldl_append]

theorem digitsToNat_renderNat : ∀ n, digitsToNat (renderNat n) = n := by
  intro n
  induction n using Nat.strong_induction_on with
  | _ n ih =>
    by_cases h10 : n < 10
    · simp only [renderNat, renderNatAux, if_pos h10]
      simp [digitsToNat, digitChar_toNat n h10]
    · have hdiv : n / 10 < n := Nat.div_lt_self (by omega) (by omega)
      simp only [renderNat, renderNatAux, if_neg h10]
      rw [renderNatAux_acc (n / 10) n [digitChar (n % 10)] (by omega)]
      rw [digitsToNat_concat]
      rw [ih (n / 10) hdiv]
      rw [digitChar_toNat (n % 10) (by omega)]
      omega

theorem renderNat_digits : ∀ n, ∀ ch ∈ renderNat n, ch.isDigit = true := by
  intro n
  induction n using Nat.strong_induction_on with
  | _ n ih =>
    intro ch hch
    by_cases h10 : n < 10
    · simp only [renderNat, renderNatAux, if_pos h10] at hch
      simp only [List.mem_singleton] at hch
      rw [hch]
      exact digitChar_isDigit _
    · have hdiv : n / 10 < n := Nat.div_lt_self (by omega) (by omega)
      simp only [renderNat, renderNatAux, if_neg h10] at hch
      rw [renderNatAux_acc (n / 10) n [digitChar (n % 10)] (by omega)] at hch
      rcases List.mem_append.mp hch with h | h
      · exact ih (n / 10) hdiv ch h
      · simp at h
        rw [h]
        exact digitChar_isDigit _

theorem renderNat_shape : ∀ n, ∃ d ds, renderNat n = d :: ds := by
  intro n
  by_cases h10 : n < 10
  · exact ⟨digitChar n, [], by simp [renderNat, renderNatAux, if_pos h10]⟩
  · have hdiv : n / 10 < n := Nat.div_lt_self (by omega) (by omega)
    have hacc := renderNatAux_acc (n / 10) n [digitChar (n % 10)] (by omega)
    obtain ⟨d, ds, hd⟩ := renderNat_shape (n / 10)
    refine ⟨d, ds ++ [digitChar (n % 10)], ?_⟩
    simp only [renderNat, renderNatAux, if_neg h10]
    rw [hacc, hd]
    simp
termination_by n => n
decreasing_by exact hdiv


theorem takeWhile_digits_append (l r : List Char)
    (hl : ∀ c ∈ l, c.isDigit = true) (hr : stopsNum r) :
    (l ++ r).takeWhile Char.isDigit = l ∧ (l ++ r).dropWhile Char.isDigit = r := by
  induction l with
  | nil =>
    simp only [List.nil_append]
    cases r with
    | nil => simp
    | cons c t =>
      have : c.isDigit = false := hr
      constructor
      · rw [List.takeWhile_cons_of_neg (by simp [this])]
      · rw [List.dropWhile_cons_of_neg (by simp [this])]
  | cons c l' ih =>
    have hc : c.isDigit = true := hl c (by simp)
    have ihh := ih (fun x hx => hl x (by simp [hx])) 
    constructor
    · rw [List.cons_append, List.takeWhile_cons_of_pos (by simp [hc]), ihh.1]
    · rw [List.cons_append, List.dropWhile_cons_of_pos (by simp [hc]), ihh.2]

theorem digit_head_facts (c : Char) (h : c.isDigit = true) :
    c ≠ '"' ∧ c ≠ '[' ∧ c ≠ '{' ∧ isJsonWs c = false := by
  refine ⟨?_, ?_, ?_, ?_⟩
  · intro he; subst he; exact absurd h (by decide)
  · intro he; subst he; exact absurd h (by decide)
  · intro he; subst he; exact absurd h (by decide)
  · rcases hb : isJsonWs c with _ | _
    · rfl
    · exfalso
      simp only [isJsonWs, Bool.or_eq_true, decide_eq_true_eq] at hb
      rcases hb with ((h' | h') | h') | h' <;> (subst h'; exact absurd h (by decide))

theorem parseF_value_num (f n : Nat) (rest : List Char) (hr : stopsNum rest) :
    parseF (f + 1) PMode.value (renderNat n ++ rest) = some (.val (.num n), rest) := by
  obtain ⟨d, ds, hshape⟩ := renderNat_shape n
  have hdig : ∀ c ∈ renderNat n, c.isDigit = true := renderNat_digits n
  have hd : d.isDigit = true := hdig d (by rw [hshape]; simp)
  have hf := digit_head_facts d hd
  rw [hshape]
  simp only [List.cons_append, parseF]
  rw [skipWs_not_ws _ _ hf.2.2.2]
  simp only [hf.1, hf.2.1, hf.2.2.1, hd, if_false, if_true, ite_false, ite_true,
    reduceIte]
  have hback : d :: (ds ++ rest) = renderNat n ++ rest := by
    rw [hshape]; simp
  rw [hback]
  have htw := takeWhile_digits_append (renderNat n) rest hdig hr
  rw [htw.1, htw.2, digitsToNat_renderNat n]

theorem parseF_value_arr_step (f : Nat) (t : List Char) :
    parseF (f + 1) PMode.value ('[' :: t) =
      (if (skipWs t).head? = some ']' then some (PRes.val (Json.arr []), (skipWs t).tail)
       else
         match parseF f PMode.elems (skipWs t) with
         | some (PRes.elems xs, r3) => some (PRes.val (Json.arr xs), r3)
         | _ => none) := rfl

theorem parseF_value_obj_step (f : Nat) (t : List Char) :
    parseF (f + 1) PMode.value ('{' :: t) =
      (if (skipWs t).head? = some '}' then some (PRes.val (Json.obj []), (skipWs t).tail)
       else
         match parseF f PMode.membs (skipWs t) with
         | some (PRes.membs ms, r3) => some (PRes.val (Json.obj ms), r3)
         | _ => none) := rfl

theorem parseF_elems_step (f : Nat) (cs : List Char) (v : Json) (r : List Char)
    (hv : parseF f PMode.value cs = some (PRes.val v, r)) :
    parseF (f + 1) PMode.elems cs =
      (if (skipWs r).head? = some ',' then
        match parseF f PMode.elems (skipWs r).tail with
        | some (PRes.elems xs, r3) => some (PRes.elems (v :: xs), r3)
        | _ => none
      else if (skipWs r).head? = some ']' then some (PRes.elems [v], (skipWs r).tail)
      else none) := by
  simp only [parseF]
  rw [hv]

theorem parseF_membs_entry (f : Nat) (kc X : List Char)
    (hk : ∀ ch ∈ kc, ch ≠ '"' ∧ ch ≠ '\\') :
    parseF (f + 1) PMode.membs (qstr kc ++ ':' :: X) =
      (match parseF f PMode.value X with
       | some (PRes.val v, r3) =>
         (if (skipWs r3).head? = some ',' then
            match parseF f PMode.membs (skipWs r3).tail with
            | some (PRes.membs ms, r5) => some (PRes.membs ((kc, v) :: ms), r5)
            | _ => none
          else if (skipWs r3).head? = some '}' then
            some (PRes.membs [(kc, v)], (skipWs r3).tail)
          else none)
       | _ => none) := by
  have hshape : qstr kc ++ ':' :: X = '"' :: (kc ++ '"' :: (':' :: X)) := by simp [qstr]
  rw [hshape]
  simp only [parseF]
  rw [skipWs_not_ws _ _ (by decide)]
  simp only [reduceIte]
  rw [parseStringBody_complete kc (':' :: X) hk]
  rfl

theorem parseF_membs_last (f : Nat) (kc vtxt : List Char) (jv : Json) (rest : List Char)
    (hk : ∀ ch ∈ kc, ch ≠ '"' ∧ ch ≠ '\\')
    (hv : parseF f PMode.value (vtxt ++ '}' :: rest) = some (PRes.val jv, '}' :: rest)) :
    parseF (f + 1) PMode.membs (qstr kc ++ ':' :: (vtxt ++ '}' :: rest)) =
      some (PRes.membs [(kc, jv)], rest) := by
  rw [parseF_membs_entry f kc _ hk]
  rw [hv]
  rfl

theorem parseF_membs_chain (f : Nat) (kc vtxt : List Char) (jv : Json)
    (ms : List (List Char × Json)) (mtxt rest : List Char)
    (hk : ∀ ch ∈ kc, ch ≠ '"' ∧ ch ≠ '\\')
    (hv : parseF f PMode.value (vtxt ++ ',' :: mtxt) = some (PRes.val jv, ',' :: mtxt))
    (hm : parseF f PMode.membs mtxt = some (PRes.membs ms, rest)) :
    parseF (f + 1) PMode.membs (qstr kc ++ ':' :: (vtxt ++ ',' :: mtxt)) =
      some (PRes.membs ((kc, jv) :: ms), rest) := by
  rw [parseF_membs_entry f kc _ hk]
  rw [hv]
  simp only []
  rw [show (skipWs (',' :: mtxt)).tail = mtxt from rfl]
  rw [if_pos (show (skipWs (',' :: mtxt)).head? = some ',' from rfl)]
  rw [hm]

theorem parseF_elems_gen {α : Type} (render : α → List Char) (toJ : α → Json)
    (need : α → Nat) :
    ∀ (xs : List α), xs ≠ [] →
      (∀ x ∈ xs, ∀ (g : Nat) (rest' : List Char),
        parseF (g + need x) PMode.value (render x ++ rest') =
          some (PRes.val (toJ x), rest')) →
      ∀ (f : Nat) (rest : List Char),
        parseF (f + (xs.map need).sum + xs.length) PMode.elems
          (commaJoin (xs.map render) ++ ']' :: rest) =
          some (PRes.elems (xs.map toJ), rest) := by
  intro xs
  induction xs with
  | nil => intro h; exact absurd rfl h
  | cons x xs' ih =>
    intro _ helem f rest
    cases xs' with
    | nil =>
      simp only [List.map_cons, List.map_nil, List.sum_cons, List.sum_nil,
        List.length_cons, List.length_nil, Nat.add_zero, Nat.zero_add, commaJoin]
      rw [parseF_elems_step (f + need x) _ (toJ x) (']' :: rest)
        (helem x (by simp) f (']' :: rest))]
      rfl
    | cons y ys =>
      have hcj : commaJoin (List.map render (x :: y :: ys)) =
          render x ++ ',' :: commaJoin (List.map render (y :: ys)) := by
        simp only [List.map_cons, commaJoin]
      rw [hcj]
      have harith : f + ((x :: y :: ys).map need).sum + (x :: y :: ys).length =
          (f + need x + ((y :: ys).map need).sum + (y :: ys).length) + 1 := by
        simp only [List.map_cons, List.sum_cons, List.length_cons]
        omega
      rw [harith]
      have hv := helem x (by simp) (f + ((y :: ys).map need).sum + (y :: ys).length)
        (',' :: (commaJoin (List.map render (y :: ys)) ++ ']' :: rest))
      rw [show f + ((y :: ys).map need).sum + (y :: ys).length + need x =
          f + need x + ((y :: ys).map need).sum + (y :: ys).length from by omega] at hv
      have hshape : (render x ++ ',' :: commaJoin (List.map render (y :: ys))) ++ ']' :: rest =
          render x ++ ',' :: (commaJoin (List.map render (y :: ys)) ++ ']' :: rest) := by
        simp [List.append_assoc]
      rw [hshape]
      rw [parseF_elems_step _ _ (toJ x) _ hv]
      rw [show (skipWs (',' :: (commaJoin (List.map render (y :: ys)) ++ ']' :: rest))).tail =
          commaJoin (List.map render (y :: ys)) ++ ']' :: rest from rfl]
      rw [if_pos (show (skipWs (',' :: (commaJoin (List.map render (y :: ys)) ++
          ']' :: rest))).head? = some ',' from rfl)]
      have hih := ih (by simp) (fun z hz g r => helem z (by simp [hz]) g r) (f + need x) rest
      rw [hih]
      rfl

theorem parseF_value_renderArr {α : Type} (render : α → List Char) (toJ : α → Json)
    (need : α → Nat) (xs : List α) (f : Nat) (rest : List Char)
    (helem : ∀ x ∈ xs, ∀ (g : Nat) (rest' : List Char),
      parseF (g + need x) PMode.value (render x ++ rest') = some (PRes.val (toJ x), rest'))
    (hhead : ∀ x ∈ xs, ∃ c t, render x = c :: t ∧ isJsonWs c = false ∧ c ≠ ']') :
    parseF (f + (xs.map need).sum + xs.length + 1) PMode.value
        (renderArr (xs.map render) ++ rest) =
      some (PRes.val (Json.arr (xs.map toJ)), rest) := by
  cases xs with
  | nil =>
    simp only [List.map_nil, List.sum_nil, List.length_nil, Nat.add_zero]
    rfl
  | cons x xs' =>
    obtain ⟨c, t0, hxr, hcws, hcne⟩ := hhead x (by simp)
    have hshape : renderArr (List.map render (x :: xs')) ++ rest =
        '[' :: (commaJoin (List.map render (x :: xs')) ++ ']' :: rest) := by
      simp [renderArr, List.append_assoc]
    rw [hshape]
    have harith : f + ((x :: xs').map need).sum + (x :: xs').length + 1 =
        (f + ((x :: xs').map need).sum + (x :: xs').length) + 1 := rfl
    rw [harith, parseF_value_arr_step]
    have hdec : ∃ R, commaJoin (List.map render (x :: xs')) ++ ']' :: rest = c :: R := by
      cases xs' with
      | nil =>
        refine ⟨t0 ++ ']' :: rest, ?_⟩
        simp only [List.map_cons, List.map_nil, commaJoin, hxr, List.cons_append]
      | cons y ys =>
        refine ⟨(t0 ++ ',' :: commaJoin (List.map render (y :: ys))) ++ ']' :: rest, ?_⟩
        simp only [List.map_cons, commaJoin, hxr]
        simp [List.append_assoc]
    obtain ⟨R, hR⟩ := hdec
    rw [hR, skipWs_not_ws _ _ hcws]
    rw [if_neg (by simp [hcne])]
    rw [← hR]
    rw [parseF_elems_gen render toJ need (x :: xs') (by simp) helem f rest]

theorem jsonSafeStr_strOk (s : List Char) (h : jsonSafeStr s = true) :
    ∀ ch ∈ s, ch ≠ '"' ∧ ch ≠ '\\' := by
  intro ch hch
  have hc := List.all_eq_true.mp h ch hch
  simp only [jsonSafeChar, Bool.and_eq_true, Bool.not_eq_true',
    decide_eq_false_iff_not] at hc
  exact ⟨hc.1.1.1, hc.1.1.2⟩

theorem parseF_value_activity (f : Nat) (a : Activity) (rest : List Char)
    (ha : activityWf a = true) :
    parseF (f + 11) PMode.value (renderActivity a ++ rest) =
      some (PRes.val (actJson a), rest) := by
  have hwf : jsonSafeStr a.time = true ∧ jsonSafeStr a.activity = true ∧
      jsonSafeStr a.description = true ∧ jsonSafeStr a.duration = true := by
    simpa [activityWf, Bool.and_eq_true, and_assoc] using ha
  have h5 : ∀ g, parseF (g + 2) PMode.membs
      (qstr (klist "cost") ++ ':' :: (renderNat a.cost ++ '}' :: rest)) =
      some (PRes.membs [(klist "cost", Json.num a.cost)], rest) := by
    intro g
    exact parseF_membs_last (g + 1) _ _ _ _ (by decide)
      (parseF_value_num g a.cost ('}' :: rest) rfl)
  have h4 : ∀ g, parseF (g + 4) PMode.membs
      (qstr (klist "duration") ++ ':' :: (qstr a.duration ++ ',' ::
        (qstr (klist "cost") ++ ':' :: (renderNat a.cost ++ '}' :: rest)))) =
      some (PRes.membs [(klist "duration", Json.str a.duration),
        (klist "cost", Json.num a.cost)], rest) := by
    intro g
    exact parseF_membs_chain (g + 3) _ _ _ _ _ _ (by decide)
      (parseF_value_str (g + 2) a.duration _ (jsonSafeStr_strOk _ hwf.2.2.2))
      (h5 (g + 1))
  have h3 : ∀ g, parseF (g + 6) PMode.membs
      (qstr (klist "description") ++ ':' :: (qstr a.description ++ ',' ::
        (qstr (klist "duration") ++ ':' :: (qstr a.duration ++ ',' ::
        (qstr (klist "cost") ++ ':' :: (renderNat a.cost ++ '}' :: rest)))))) =
      some (PRes.membs [(klist "description", Json.str a.description),
        (klist "duration", Json.str a.duration),
        (klist "cost", Json.num a.cost)], rest) := by
    intro g
    exact parseF_membs_chain (g + 5) _ _ _ _ _ _ (by decide)
      (parseF_value_str (g + 4) a.description _ (jsonSafeStr_strOk _ hwf.2.2.1))
      (h4 (g + 1))
  have h2 : ∀ g, parseF (g + 8) PMode.membs
      (qstr (klist "activity") ++ ':' :: (qstr a.activity ++ ',' ::
        (qstr (klist "description") ++ ':' :: (qstr a.description ++ ',' ::
        (qstr (klist "duration") ++ ':' :: (qstr a.duration ++ ',' ::
        (qstr (klist "cost") ++ ':' :: (renderNat a.cost ++ '}' :: rest)))))))) =
      some (PRes.membs [(klist "activity", Json.str a.activity),
        (klist "description", Json.str a.description),
        (klist "duration", Json.str a.duration),
        (klist "cost", Json.num a.cost)], rest) := by
    intro g
    exact parseF_membs_chain (g + 7) _ _ _ _ _ _ (by decide)
      (parseF_value_str (g + 6) a.activity _ (jsonSafeStr_strOk _ hwf.2.1))
      (h3 (g + 1))
  have h1 : ∀ g, parseF (g + 10) PMode.membs
      (qstr (klist "time") ++ ':' :: (qstr a.time ++ ',' ::
        (qstr (klist "activity") ++ ':' :: (qstr a.activity ++ ',' ::
        (qstr (klist "description") ++ ':' :: (qstr a.description ++ ',' ::
        (qstr (klist "duration") ++ ':' :: (qstr a.duration ++ ',' ::
        (qstr (klist "cost") ++ ':' :: (renderNat a.cost ++ '}' :: rest)))))))))) =
      some (PRes.membs [(klist "time", Json.str a.time),
        (klist "activity", Json.str a.activity),
        (klist "description", Json.str a.description),
        (klist "duration", Json.str a.duration),
        (klist "cost", Json.num a.cost)], rest) := by
    intro g
    exact parseF_membs_chain (g + 9) _ _ _ _ _ _ (by decide)
      (parseF_value_str (g + 8) a.time _ (jsonSafeStr_strOk _ hwf.1))
      (h2 (g + 1))
  have hshape : renderActivity a ++ rest = '{' ::
      (qstr (klist "time") ++ ':' :: (qstr a.time ++ ',' ::
        (qstr (klist "activity") ++ ':' :: (qstr a.activity ++ ',' ::
        (qstr (klist "description") ++ ':' :: (qstr a.description ++ ',' ::
        (qstr (klist "duration") ++ ':' :: (qstr a.duration ++ ',' ::
        (qstr (klist "cost") ++ ':' :: (renderNat a.cost ++ '}' :: rest)))))))))) := by
    simp [renderActivity, renderKV, List.append_assoc]
  rw [hshape]
  rw [show f + 11 = (f + 10) + 1 from rfl]
  rw [parseF_value_obj_step (f + 10)]
  have ht : qstr (klist "time") ++ ':' :: (qstr a.time ++ ',' ::
      (qstr (klist "activity") ++ ':' :: (qstr a.activity ++ ',' ::
      (qstr (klist "description") ++ ':' :: (qstr a.description ++ ',' ::
      (qstr (klist "duration") ++ ':' :: (qstr a.duration ++ ',' ::
      (qstr (klist "cost") ++ ':' :: (renderNat a.cost ++ '}' :: rest))))))))) =
      '"' :: (klist "time" ++ '"' :: (':' :: (qstr a.time ++ ',' ::
      (qstr (klist "activity") ++ ':' :: (qstr a.activity ++ ',' ::
      (qstr (klist "description") ++ ':' :: (qstr a.description ++ ',' ::
      (qstr (klist "duration") ++ ':' :: (qstr a.duration ++ ',' ::
      (qstr (klist "cost") ++ ':' :: (renderNat a.cost ++ '}' :: rest))))))))))) := by
    simp [qstr]
  rw [ht, skipWs_not_ws _ _ (by decide)]
  rw [if_neg (by simp)]
  rw [← ht]
  rw [h1 f]
  rfl

theorem parseF_value_meal (f : Nat) (m : Meal) (rest : List Char)
    (hm : mealWf m = true) :
    parseF (f + 9) PMode.value (renderMeal m ++ rest) =
      some (PRes.val (mealJson m), rest) := by
  have hwf : jsonSafeStr m.meal = true ∧ jsonSafeStr m.restaurant = true ∧
      jsonSafeStr m.cuisine = true := by
    simpa [mealWf, Bool.and_eq_true, and_assoc] using hm
  have h4 : ∀ g, parseF (g + 2) PMode.membs
      (qstr (klist "cost") ++ ':' :: (renderNat m.cost ++ '}' :: rest)) =
      some (PRes.membs [(klist "cost", Json.num m.cost)], rest) := by
    intro g
    exact parseF_membs_last (g + 1) _ _ _ _ (by decide)
      (parseF_value_num g m.cost ('}' :: rest) rfl)
  have h3 : ∀ g, parseF (g + 4) PMode.membs
      (qstr (klist "cuisine") ++ ':' :: (qstr m.cuisine ++ ',' ::
        (qstr (klist "cost") ++ ':' :: (renderNat m.cost ++ '}' :: rest)))) =
      some (PRes.membs [(klist "cuisine", Json.str m.cuisine),
        (klist "cost", Json.num m.cost)], rest) := by
    intro g
    exact parseF_membs_chain (g + 3) _ _ _ _ _ _ (by decide)
      (parseF_value_str (g + 2) m.cuisine _ (jsonSafeStr_strOk _ hwf.2.2))
      (h4 (g + 1))
  have h2 : ∀ g, parseF (g + 6) PMode.membs
      (qstr (klist "restaurant") ++ ':' :: (qstr m.restaurant ++ ',' ::
        (qstr (klist "cuisine") ++ ':' :: (qstr m.cuisine ++ ',' ::
        (qstr (klist "cost") ++ ':' :: (renderNat m.cost ++ '}' :: rest)))))) =
      some (PRes.membs [(klist "restaurant", Json.str m.restaurant),
        (klist "cuisine", Json.str m.cuisine),
        (klist "cost", Json.num m.cost)], rest) := by
    intro g
    exact parseF_membs_chain (g + 5) _ _ _ _ _ _ (by decide)
      (parseF_value_str (g + 4) m.restaurant _ (jsonSafeStr_strOk _ hwf.2.1))
      (h3 (g + 1))
  have h1 : ∀ g, parseF (g + 8) PMode.membs
      (qstr (klist "meal") ++ ':' :: (qstr m.meal ++ ',' ::
        (qstr (klist "restaurant") ++ ':' :: (qstr m.restaurant ++ ',' ::
        (qstr (klist "cuisine") ++ ':' :: (qstr m.cuisine ++ ',' ::
        (qstr (klist "cost") ++ ':' :: (renderNat m.cost ++ '}' :: rest)))))))) =
      some (PRes.membs [(klist "meal", Json.str m.meal),
        (klist "restaurant", Json.str m.restaurant),
        (klist "cuisine", Json.str m.cuisine),
        (klist "cost", Json.num m.cost)], rest) := by
    intro g
    exact parseF_membs_chain (g + 7) _ _ _ _ _ _ (by decide)
      (parseF_value_str (g + 6) m.meal _ (jsonSafeStr_strOk _ hwf.1))
      (h2 (g + 1))
  have hshape : renderMeal m ++ rest = '{' ::
      (qstr (klist "meal") ++ ':' :: (qstr m.meal ++ ',' ::
        (qstr (klist "restaurant") ++ ':' :: (qstr m.restaurant ++ ',' ::
        (qstr (klist "cuisine") ++ ':' :: (qstr m.cuisine ++ ',' ::
        (qstr (klist "cost") ++ ':' :: (renderNat m.cost ++ '}' :: rest)))))))) := by
    simp [renderMeal, renderKV, List.append_assoc]
  rw [hshape]
  rw [show f + 9 = (f + 8) + 1 from rfl]
  rw [parseF_value_obj_step (f + 8)]
  have ht : qstr (klist "meal") ++ ':' :: (qstr m.meal ++ ',' ::
      (qstr (klist "restaurant") ++ ':' :: (qstr m.restaurant ++ ',' ::
      (qstr (klist "cuisine") ++ ':' :: (qstr m.cuisine ++ ',' ::
      (qstr (klist "cost") ++ ':' :: (renderNat m.cost ++ '}' :: rest))))))) =
      '"' :: (klist "meal" ++ '"' :: (':' :: (qstr m.meal ++ ',' ::
      (qstr (klist "restaurant") ++ ':' :: (qstr m.restaurant ++ ',' ::
      (qstr (klist "cuisine") ++ ':' :: (qstr m.cuisine ++ ',' ::
      (qstr (klist "cost") ++ ':' :: (renderNat m.cost ++ '}' :: rest))))))))) := by
    simp [qstr]
  rw [ht, skipWs_not_ws _ _ (by decide)]
  rw [if_neg (by simp)]
  rw [← ht]
  rw [h1 f]
  rfl

theorem sum_map_const {α : Type} (k : Nat) (l : List α) :
    (l.map fun _ => k).sum = k * l.length := by
  induction l with
  | nil => simp
  | cons a t ih =>
    simp only [List.map_cons, List.sum_cons, List.length_cons, ih, Nat.mul_succ]
    omega

theorem parseF_value_strArr (f : Nat) (xs : List (List Char)) (rest : List Char)
    (hall : ∀ s ∈ xs, jsonSafeStr s = true) :
    parseF (f + (2 * xs.length + 1)) PMode.value (renderArr (xs.map qstr) ++ rest) =
      some (PRes.val (Json.arr (xs.map Json.str)), rest) := by
  have h := parseF_value_renderArr qstr Json.str (fun _ => 1) xs f rest
    (fun s hs g r => parseF_value_str g s r (jsonSafeStr_strOk s (hall s hs)))
    (fun s _ => ⟨'"', s ++ ['"'], rfl, by decide, by decide⟩)
  rw [show f + (xs.map fun _ => 1).sum + xs.length + 1 = f + (2 * xs.length + 1) from by
    rw [sum_map_const]; omega] at h
  exact h

theorem parseF_value_actArr (f : Nat) (xs : List Activity) (rest : List Char)
    (hall : ∀ a ∈ xs, activityWf a = true) :
    parseF (f + (12 * xs.length + 1)) PMode.value
        (renderArr (xs.map renderActivity) ++ rest) =
      some (PRes.val (Json.arr (xs.map actJson)), rest) := by
  have h := parseF_value_renderArr renderActivity actJson (fun _ => 11) xs f rest
    (fun a ha g r => parseF_value_activity g a r (hall a ha))
    (fun a _ => ⟨'{', _, rfl, by decide, by decide⟩)
  rw [show f + (xs.map fun _ => 11).sum + xs.length + 1 = f + (12 * xs.length + 1) from by
    rw [sum_map_const]; omega] at h
  exact h

theorem parseF_value_mealArr (f : Nat) (xs : List Meal) (rest : List Char)
    (hall : ∀ m ∈ xs, mealWf m = true) :
    parseF (f + (10 * xs.length + 1)) PMode.value
        (renderArr (xs.map renderMeal) ++ rest) =
      some (PRes.val (Json.arr (xs.map mealJson)), rest) := by
  have h := parseF_value_renderArr renderMeal mealJson (fun _ => 9) xs f rest
    (fun m hm g r => parseF_value_meal g m r (hall m hm))
    (fun m _ => ⟨'{', _, rfl, by decide, by decide⟩)
  rw [show f + (xs.map fun _ => 9).sum + xs.length + 1 = f + (10 * xs.length + 1) from by
    rw [sum_map_const]; omega] at h
  exact h

theorem parseF_value_day (f : Nat) (d : DayPlan) (rest : List Char)
    (hd : dayWf d = true) :
    parseF (f + (12 * d.activities.length + 10 * d.meals.length + 13)) PMode.value
        (renderDay d ++ rest) = some (PRes.val (dayJson d), rest) := by
  have hw : jsonSafeStr d.title = true ∧ jsonSafeStr d.travel_tips = true ∧
      (∀ a ∈ d.activities, activityWf a = true) ∧ (∀ m ∈ d.meals, mealWf m = true) := by
    simp only [dayWf, Bool.and_eq_true, List.all_eq_true] at hd
    exact ⟨hd.1.1.1, hd.1.1.2, hd.1.2, hd.2⟩
  have h6 : ∀ g, parseF (g + 2) PMode.membs
      (qstr (klist "travel_tips") ++ ':' :: (qstr d.travel_tips ++ '}' :: rest)) =
      some (PRes.membs [(klist "travel_tips", Json.str d.travel_tips)], rest) := by
    intro g
    exact parseF_membs_last (g + 1) _ _ _ _ (by decide)
      (parseF_value_str g d.travel_tips _ (jsonSafeStr_strOk _ hw.2.1))
  have h5 : ∀ g, parseF (g + 4) PMode.membs
      (qstr (klist "estimated_cost") ++ ':' :: (renderNat d.estimated_cost ++ ',' ::
        (qstr (klist "travel_tips") ++ ':' :: (qstr d.travel_tips ++ '}' :: rest)))) =
      some (PRes.membs [(klist "estimated_cost", Json.num d.estimated_cost),
        (klist "travel_tips", Json.str d.travel_tips)], rest) := by
    intro g
    exact parseF_membs_chain (g + 3) _ _ _ _ _ _ (by decide)
      (parseF_value_num (g + 2) d.estimated_cost _ rfl)
      (h6 (g + 1))
  have h4 : ∀ g, parseF (g + (10 * d.meals.length + 6)) PMode.membs
      (qstr (klist "meals") ++ ':' :: (renderArr (d.meals.map renderMeal) ++ ',' ::
        (qstr (klist "estimated_cost") ++ ':' :: (renderNat d.estimated_cost ++ ',' ::
        (qstr (klist "travel_tips") ++ ':' :: (qstr d.travel_tips ++ '}' :: rest)))))) =
      some (PRes.membs [(klist "meals", Json.arr (d.meals.map mealJson)),
        (klist "estimated_cost", Json.num d.estimated_cost),
        (klist "travel_tips", Json.str d.travel_tips)], rest) := by
    intro g
    have hv := parseF_value_mealArr (g + 4) d.meals (',' ::
        (qstr (klist "estimated_cost") ++ ':' :: (renderNat d.estimated_cost ++ ',' ::
        (qstr (klist "travel_tips") ++ ':' :: (qstr d.travel_tips ++ '}' :: rest))))) hw.2.2.2
    rw [show g + 4 + (10 * d.meals.length + 1) =
        g + (10 * d.meals.length + 5) from by omega] at hv
    have hm := h5 (g + (10 * d.meals.length + 1))
    rw [show g + (10 * d.meals.length + 1) + 4 =
        g + (10 * d.meals.length + 5) from by omega] at hm
    have hc := parseF_membs_chain (g + (10 * d.meals.length + 5)) (klist "meals")
      _ _ _ _ _ (by decide) hv hm
    rw [show g + (10 * d.meals.length + 5) + 1 =
        g + (10 * d.meals.length + 6) from by omega] at hc
    exact hc
  have h3 : ∀ g, parseF (g + (12 * d.activities.length + 10 * d.meals.length + 8)) PMode.membs
      (qstr (klist "activities") ++ ':' :: (renderArr (d.activities.map renderActivity) ++ ',' ::
        (qstr (klist "meals") ++ ':' :: (renderArr (d.meals.map renderMeal) ++ ',' ::
        (qstr (klist "estimated_cost") ++ ':' :: (renderNat d.estimated_cost ++ ',' ::
        (qstr (klist "travel_tips") ++ ':' :: (qstr d.travel_tips ++ '}' :: rest)))))))) =
      some (PRes.membs [(klist "activities", Json.arr (d.activities.map actJson)),
        (klist "meals", Json.arr (d.meals.map mealJson)),
        (klist "estimated_cost", Json.num d.estimated_cost),
        (klist "travel_tips", Json.str d.travel_tips)], rest) := by
    intro g
    have hv := parseF_value_actArr (g + (10 * d.meals.length + 6)) d.activities (',' ::
        (qstr (klist "meals") ++ ':' :: (renderArr (d.meals.map renderMeal) ++ ',' ::
        (qstr (klist "estimated_cost") ++ ':' :: (renderNat d.estimated_cost ++ ',' ::
        (qstr (klist "travel_tips") ++ ':' :: (qstr d.travel_tips ++ '}' :: rest))))))) hw.2.2.1
    rw [show g + (10 * d.meals.length + 6) + (12 * d.activities.length + 1) =
        g + (12 * d.activities.length + 10 * d.meals.length + 7) from by omega] at hv
    have hm := h4 (g + (12 * d.activities.length + 1))
    rw [show g + (12 * d.activities.length + 1) + (10 * d.meals.length + 6) =
        g + (12 * d.activities.length + 10 * d.meals.length + 7) from by omega] at hm
    have hc := parseF_membs_chain (g + (12 * d.activities.length + 10 * d.meals.length + 7))
      (klist "activities") _ _ _ _ _ (by decide) hv hm
    rw [show g + (12 * d.activities.length + 10 * d.meals.length + 7) + 1 =
        g + (12 * d.activities.length + 10 * d.meals.length + 8) from by omega] at hc
    exact hc
  have h2 : ∀ g, parseF (g + (12 * d.activities.length + 10 * d.meals.length + 10)) PMode.membs
      (qstr (klist "title") ++ ':' :: (qstr d.title ++ ',' ::
        (qstr (klist "activities") ++ ':' :: (renderArr (d.activities.map renderActivity) ++ ',' ::
        (qstr (klist "meals") ++ ':' :: (renderArr (d.meals.map renderMeal) ++ ',' ::
        (qstr (klist "estimated_cost") ++ ':' :: (renderNat d.estimated_cost ++ ',' ::
        (qstr (klist "travel_tips") ++ ':' :: (qstr d.travel_tips ++ '}' :: rest)))))))))) =
      some (PRes.membs [(klist "title", Json.str d.title),
        (klist "activities", Json.arr (d.activities.map actJson)),
        (klist "meals", Json.arr (d.meals.map mealJson)),
        (klist "estimated_cost", Json.num d.estimated_cost),
        (klist "travel_tips", Json.str d.travel_tips)], rest) := by
    intro g
    have hv := parseF_value_str (g + (12 * d.activities.length + 10 * d.meals.length + 8))
      d.title (',' ::
        (qstr (klist "activities") ++ ':' :: (renderArr (d.activities.map renderActivity) ++ ',' ::
        (qstr (klist "meals") ++ ':' :: (renderArr (d.meals.map renderMeal) ++ ',' ::
        (qstr (klist "estimated_cost") ++ ':' :: (renderNat d.estimated_cost ++ ',' ::
        (qstr (klist "travel_tips") ++ ':' :: (qstr d.travel_tips ++ '}' :: rest))))))))) (jsonSafeStr_strOk _ hw.1)
    rw [show g + (12 * d.activities.length + 10 * d.meals.length + 8) + 1 =
        g + (12 * d.activities.length + 10 * d.meals.length + 9) from by omega] at hv
    have hm := h3 (g + 1)
    rw [show g + 1 + (12 * d.activities.length + 10 * d.meals.length + 8) =
        g + (12 * d.activities.length + 10 * d.meals.length + 9) from by omega] at hm
    have hc := parseF_membs_chain (g + (12 * d.activities.length + 10 * d.meals.length + 9))
      (klist "title") _ _ _ _ _ (by decide) hv hm
    rw [show g + (12 * d.activities.length + 10 * d.meals.length + 9) + 1 =
        g + (12 * d.activities.length + 10 * d.meals.length + 10) from by omega] at hc
    exact hc
  have h1 : ∀ g, parseF (g + (12 * d.activities.length + 10 * d.meals.length + 12)) PMode.membs
      (qstr (klist "day") ++ ':' :: (renderNat d.day ++ ',' ::
        (qstr (klist "title") ++ ':' :: (qstr d.title ++ ',' ::
        (qstr (klist "activities") ++ ':' :: (renderArr (d.activities.map renderActivity) ++ ',' ::
        (qstr (klist "meals") ++ ':' :: (renderArr (d.meals.map renderMeal) ++ ',' ::
        (qstr (klist "estimated_cost") ++ ':' :: (renderNat d.estimated_cost ++ ',' ::
        (qstr (klist "travel_tips") ++ ':' :: (qstr d.travel_tips ++ '}' :: rest)))))))))))) =
      some (PRes.membs [(klist "day", Json.num d.day),
        (klist "title", Json.str d.title),
        (klist "activities", Json.arr (d.activities.map actJson)),
        (klist "meals", Json.arr (d.meals.map mealJson)),
        (klist "estimated_cost", Json.num d.estimated_cost),
        (klist "travel_tips", Json.str d.travel_tips)], rest) := by
    intro g
    have hv := parseF_value_num (g + (12 * d.activities.length + 10 * d.meals.length + 10))
      d.day (',' ::
        (qstr (klist "title") ++ ':' :: (qstr d.title ++ ',' ::
        (qstr (klist "activities") ++ ':' :: (renderArr (d.activities.map renderActivity) ++ ',' ::
        (qstr (klist "meals") ++ ':' :: (renderArr (d.meals.map renderMeal) ++ ',' ::
        (qstr (klist "estimated_cost") ++ ':' :: (renderNat d.estimated_cost ++ ',' ::
        (qstr (klist "travel_tips") ++ ':' :: (qstr d.travel_tips ++ '}' :: rest))))))))))) rfl
    rw [show g + (12 * d.activities.length + 10 * d.meals.length + 10) + 1 =
        g + (12 * d.activities.length + 10 * d.meals.length + 11) from by omega] at hv
    have hm := h2 (g + 1)
    rw [show g + 1 + (12 * d.activities.length + 10 * d.meals.length + 10) =
        g + (12 * d.activities.length + 10 * d.meals.length + 11) from by omega] at hm
    have hc := parseF_membs_chain (g + (12 * d.activities.length + 10 * d.meals.length + 11))
      (klist "day") _ _ _ _ _ (by decide) hv hm
    rw [show g + (12 * d.activities.length + 10 * d.meals.length + 11) + 1 =
        g + (12 * d.activities.length + 10 * d.meals.length + 12) from by omega] at hc
    exact hc
  have hshape : renderDay d ++ rest = '{' ::
      (qstr (klist "day") ++ ':' :: (renderNat d.day ++ ',' ::
        (qstr (klist "title") ++ ':' :: (qstr d.title ++ ',' ::
        (qstr (klist "activities") ++ ':' :: (renderArr (d.activities.map renderActivity) ++ ',' ::
        (qstr (klist "meals") ++ ':' :: (renderArr (d.meals.map renderMeal) ++ ',' ::
        (qstr (klist "estimated_cost") ++ ':' :: (renderNat d.estimated_cost ++ ',' ::
        (qstr (klist "travel_tips") ++ ':' :: (qstr d.travel_tips ++ '}' :: rest)))))))))))) := by
    simp [renderDay, renderKV, List.append_assoc]
  rw [hshape]
  rw [show f + (12 * d.activities.length + 10 * d.meals.length + 13) =
      (f + (12 * d.activities.length + 10 * d.meals.length + 12)) + 1 from by omega]
  rw [parseF_value_obj_step]
  have ht : qstr (klist "day") ++ ':' :: (renderNat d.day ++ ',' ::
      (qstr (klist "title") ++ ':' :: (qstr d.title ++ ',' ::
      (qstr (klist "activities") ++ ':' :: (renderArr (d.activities.map renderActivity) ++ ',' ::
      (qstr (klist "meals") ++ ':' :: (renderArr (d.meals.map renderMeal) ++ ',' ::
      (qstr (klist "estimated_cost") ++ ':' :: (renderNat d.estimated_cost ++ ',' ::
      (qstr (klist "travel_tips") ++ ':' :: (qstr d.travel_tips ++ '}' :: rest))))))))))) =
      '"' :: (klist "day" ++ '"' :: (':' :: (renderNat d.day ++ ',' ::
      (qstr (klist "title") ++ ':' :: (qstr d.title ++ ',' ::
      (qstr (klist "activities") ++ ':' :: (renderArr (d.activities.map renderActivity) ++ ',' ::
      (qstr (klist "meals") ++ ':' :: (renderArr (d.meals.map renderMeal) ++ ',' ::
      (qstr (klist "estimated_cost") ++ ':' :: (renderNat d.estimated_cost ++ ',' ::
      (qstr (klist "travel_tips") ++ ':' :: (qstr d.travel_tips ++ '}' :: rest))))))))))))) := by
    simp [qstr]
  rw [ht, skipWs_not_ws _ _ (by decide)]
  rw [if_neg (by simp)]
  rw [← ht]
  rw [h1 f]
  rfl



theorem parseF_value_dayArr (f : Nat) (ds : List DayPlan) (rest : List Char)
    (hall : ∀ d ∈ ds, dayWf d = true) :
    parseF (f + ((ds.map dayNeed).sum + ds.length + 1)) PMode.value
        (renderArr (ds.map renderDay) ++ rest) =
      some (PRes.val (Json.arr (ds.map dayJson)), rest) := by
  have h := parseF_value_renderArr renderDay dayJson dayNeed ds f rest
    (fun d hd g r => parseF_value_day g d r (hall d hd))
    (fun d _ => ⟨'{', _, rfl, by decide, by decide⟩)
  rw [show f + (ds.map dayNeed).sum + ds.length + 1 =
      f + ((ds.map dayNeed).sum + ds.length + 1) from by omega] at h
  exact h

theorem parseF_value_itin (f : Nat) (it : Itinerary) (rest : List Char)
    (hwf : itineraryWf it = true) :
    parseF (f + itinNeed it) PMode.value (renderModelJson it ++ rest) =
      some (PRes.val (Json.obj (modelFields it)), rest) := by
  have hw : jsonSafeStr it.overview = true ∧ (∀ d ∈ it.daily_itineraries, dayWf d = true) ∧
      (∀ s ∈ it.famous_attractions, jsonSafeStr s = true) ∧
      (∀ s ∈ it.local_cuisine, jsonSafeStr s = true) ∧
      (∀ s ∈ it.travel_tips, jsonSafeStr s = true) ∧
      (∀ s ∈ it.packing_suggestions, jsonSafeStr s = true) := by
    simp only [itineraryWf, Bool.and_eq_true, List.all_eq_true] at hwf
    exact ⟨hwf.1.1.1.1.1, hwf.1.1.1.1.2, hwf.1.1.1.2, hwf.1.1.2, hwf.1.2, hwf.2⟩
  have h7 : ∀ g, parseF (g + 2) PMode.membs
      (qstr (klist "total_estimated_cost") ++ ':' :: (renderNat it.total_estimated_cost ++ '}' :: rest)) =
      some (PRes.membs [(klist "total_estimated_cost", Json.num it.total_estimated_cost)], rest) := by
    intro g
    exact parseF_membs_last (g + 1) _ _ _ _ (by decide)
      (parseF_value_num g it.total_estimated_cost ('}' :: rest) rfl)
  have h6 : ∀ g, parseF (g + ((2 * it.packing_suggestions.length + 1) + 3)) PMode.membs
      (qstr (klist "packing_suggestions") ++ ':' :: (renderArr (it.packing_suggestions.map qstr) ++ ',' :: (qstr (klist "total_estimated_cost") ++ ':' :: (renderNat it.total_estimated_cost ++ '}' :: rest)))) =
      some (PRes.membs [(klist "packing_suggestions", Json.arr (it.packing_suggestions.map Json.str)),
        (klist "total_estimated_cost", Json.num it.total_estimated_cost)], rest) := by
    intro g
    have hv := parseF_value_strArr (g + 2) it.packing_suggestions (',' :: (qstr (klist "total_estimated_cost") ++ ':' :: (renderNat it.total_estimated_cost ++ '}' :: rest))) hw.2.2.2.2.2
    rw [show g + 2 + (2 * it.packing_suggestions.length + 1) = g + ((2 * it.packing_suggestions.length + 1) + 2) from by omega] at hv
    have hm := h7 (g + ((2 * it.packing_suggestions.length + 1)))
    rw [show g + ((2 * it.packing_suggestions.length + 1)) + (2) = g + ((2 * it.packing_suggestions.length + 1) + 2) from by omega] at hm
    have hc := parseF_membs_chain (g + ((2 * it.packing_suggestions.length + 1) + 2)) (klist "packing_suggestions")
      _ _ _ _ _ (by decide) hv hm
    rw [show g + ((2 * it.packing_suggestions.length + 1) + 2) + 1 = g + ((2 * it.packing_suggestions.length + 1) + 3) from by omega] at hc
    exact hc
  have h5 : ∀ g, parseF (g + ((2 * it.travel_tips.length + 1) + (2 * it.packing_suggestions.length + 1) + 4)) PMode.membs
      (qstr (klist "travel_tips") ++ ':' :: (renderArr (it.travel_tips.map qstr) ++ ',' :: (qstr (klist "packing_suggestions") ++ ':' :: (renderArr (it.packing_suggestions.map qstr) ++ ',' :: (qstr (klist "total_estimated_cost") ++ ':' :: (renderNat it.total_estimated_cost ++ '}' :: rest)))))) =
      some (PRes.membs [(klist "travel_tips", Json.arr (it.travel_tips.map Json.str)),
        (klist "packing_suggestions", Json.arr (it.packing_suggestions.map Json.str)),
        (klist "total_estimated_cost", Json.num it.total_estimated_cost)], rest) := by
    intro g
    have hv := parseF_value_strArr (g + ((2 * it.packing_suggestions.length + 1) + 3)) it.travel_tips (',' :: (qstr (klist "packing_suggestions") ++ ':' :: (renderArr (it.packing_suggestions.map qstr) ++ ',' :: (qstr (klist "total_estimated_cost") ++ ':' :: (renderNat it.total_estimated_cost ++ '}' :: rest))))) hw.2.2.2.2.1
    rw [show g + ((2 * it.packing_suggestions.length + 1) + 3) + (2 * it.travel_tips.length + 1) = g + ((2 * it.travel_tips.length + 1) + (2 * it.packing_suggestions.length + 1) + 3) from by omega] at hv
    have hm := h6 (g + ((2 * it.travel_tips.length + 1)))
    rw [show g + ((2 * it.travel_tips.length + 1)) + ((2 * it.packing_suggestions.length + 1) + 3) = g + ((2 * it.travel_tips.length + 1) + (2 * it.packing_suggestions.length + 1) + 3) from by omega] at hm
    have hc := parseF_membs_chain (g + ((2 * it.travel_tips.length + 1) + (2 * it.packing_suggestions.length + 1) + 3)) (klist "travel_tips")
      _ _ _ _ _ (by decide) hv hm
    rw [show g + ((2 * it.travel_tips.length + 1) + (2 * it.packing_suggestions.length + 1) + 3) + 1 = g + ((2 * it.travel_tips.length + 1) + (2 * it.packing_suggestions.length + 1) + 4) from by omega] at hc
    exact hc
  have h4 : ∀ g, parseF (g + ((2 * it.local_cuisine.length + 1) + (2 * it.travel_tips.length + 1) + (2 * it.packing_suggestions.length + 1) + 5)) PMode.membs
      (qstr (klist "local_cuisine") ++ ':' :: (renderArr (it.local_cuisine.map qstr) ++ ',' :: (qstr (klist "travel_tips") ++ ':' :: (renderArr (it.travel_tips.map qstr) ++ ',' :: (qstr (klist "packing_suggestions") ++ ':' :: (renderArr (it.packing_suggestions.map qstr) ++ ',' :: (qstr (klist "total_estimated_cost") ++ ':' :: (renderNat it.total_estimated_cost ++ '}' :: rest)))))))) =
      some (PRes.membs [(klist "local_cuisine", Json.arr (it.local_cuisine.map Json.str)),
        (klist "travel_tips", Json.arr (it.travel_tips.map Json.str)),
        (klist "packing_suggestions", Json.arr (it.packing_suggestions.map Json.str)),
        (klist "total_estimated_cost", Json.num it.total_estimated_cost)], rest) := by
    intro g
    have hv := parseF_value_strArr (g + ((2 * it.travel_tips.length + 1) + (2 * it.packing_suggestions.length + 1) + 4)) it.local_cuisine (',' :: (qstr (klist "travel_tips") ++ ':' :: (renderArr (it.travel_tips.map qstr) ++ ',' :: (qstr (klist "packing_suggestions") ++ ':' :: (renderArr (it.packing_suggestions.map qstr) ++ ',' :: (qstr (klist "total_estimated_cost") ++ ':' :: (renderNat it.total_estimated_cost ++ '}' :: rest))))))) hw.2.2.2.1
    rw [show g + ((2 * it.travel_tips.length + 1) + (2 * it.packing_suggestions.length + 1) + 4) + (2 * it.local_cuisine.length + 1) = g + ((2 * it.local_cuisine.length + 1) + (2 * it.travel_tips.length + 1) + (2 * it.packing_suggestions.length + 1) + 4) from by omega] at hv
    have hm := h5 (g + ((2 * it.local_cuisine.length + 1)))
    rw [show g + ((2 * it.local_cuisine.length + 1)) + ((2 * it.travel_tips.length + 1) + (2 * it.packing_suggestions.length + 1) + 4) = g + ((2 * it.local_cuisine.length + 1) + (2 * it.travel_tips.length + 1) + (2 * it.packing_suggestions.length + 1) + 4) from by omega] at hm
    have hc := parseF_membs_chain (g + ((2 * it.local_cuisine.length + 1) + (2 * it.travel_tips.length + 1) + (2 * it.packing_suggestions.length + 1) + 4)) (klist "local_cuisine")
      _ _ _ _ _ (by decide) hv hm
    rw [show g + ((2 * it.local_cuisine.length + 1) + (2 * it.travel_tips.length + 1) + (2 * it.packing_suggestions.length + 1) + 4) + 1 = g + ((2 * it.local_cuisine.length + 1) + (2 * it.travel_tips.length + 1) + (2 * it.packing_suggestions.length + 1) + 5) from by omega] at hc
    exact hc
  have h3 : ∀ g, parseF (g + ((2 * it.famous_attractions.length + 1) + (2 * it.local_cuisine.length + 1) + (2 * it.travel_tips.length + 1) + (2 * it.packing_suggestions.length + 1) + 6)) PMode.membs
      (qstr (klist "famous_attractions") ++ ':' :: (renderArr (it.famous_attractions.map qstr) ++ ',' :: (qstr (klist "local_cuisine") ++ ':' :: (renderArr (it.local_cuisine.map qstr) ++ ',' :: (qstr (klist "travel_tips") ++ ':' :: (renderArr (it.travel_tips.map qstr) ++ ',' :: (qstr (klist "packing_suggestions") ++ ':' :: (renderArr (it.packing_suggestions.map qstr) ++ ',' :: (qstr (klist "total_estimated_cost") ++ ':' :: (renderNat it.total_estimated_cost ++ '}' :: rest)))))))))) =
      some (PRes.membs [(klist "famous_attractions", Json.arr (it.famous_attractions.map Json.str)),
        (klist "local_cuisine", Json.arr (it.local_cuisine.map Json.str)),
        (klist "travel_tips", Json.arr (it.travel_tips.map Json.str)),
        (klist "packing_suggestions", Json.arr (it.packing_suggestions.map Json.str)),
        (klist "total_estimated_cost", Json.num it.total_estimated_cost)], rest) := by
    intro g
    have hv := parseF_value_strArr (g + ((2 * it.local_cuisine.length + 1) + (2 * it.travel_tips.length + 1) + (2 * it.packing_suggestions.length + 1) + 5)) it.famous_attractions (',' :: (qstr (klist "local_cuisine") ++ ':' :: (renderArr (it.local_cuisine.map qstr) ++ ',' :: (qstr (klist "travel_tips") ++ ':' :: (renderArr (it.travel_tips.map qstr) ++ ',' :: (qstr (klist "packing_suggestions") ++ ':' :: (renderArr (it.packing_suggestions.map qstr) ++ ',' :: (qstr (klist "total_estimated_cost") ++ ':' :: (renderNat it.total_estimated_cost ++ '}' :: rest))))))))) hw.2.2.1
    rw [show g + ((2 * it.local_cuisine.length + 1) + (2 * it.travel_tips.length + 1) + (2 * it.packing_suggestions.length + 1) + 5) + (2 * it.famous_attractions.length + 1) = g + ((2 * it.famous_attractions.length + 1) + (2 * it.local_cuisine.length + 1) + (2 * it.travel_tips.length + 1) + (2 * it.packing_suggestions.length + 1) + 5) from by omega] at hv
    have hm := h4 (g + ((2 * it.famous_attractions.length + 1)))
    rw [show g + ((2 * it.famous_attractions.length + 1)) + ((2 * it.local_cuisine.length + 1) + (2 * it.travel_tips.length + 1) + (2 * it.packing_suggestions.length + 1) + 5) = g + ((2 * it.famous_attractions.length + 1) + (2 * it.local_cuisine.length + 1) + (2 * it.travel_tips.length + 1) + (2 * it.packing_suggestions.length + 1) + 5) from by omega] at hm
    have hc := parseF_membs_chain (g + ((2 * it.famous_attractions.length + 1) + (2 * it.local_cuisine.length + 1) + (2 * it.travel_tips.length + 1) + (2 * it.packing_suggestions.length + 1) + 5)) (klist "famous_attractions")
      _ _ _ _ _ (by decide) hv hm
    rw [show g + ((2 * it.famous_attractions.length + 1) + (2 * it.local_cuisine.length + 1) + (2 * it.travel_tips.length + 1) + (2 * it.packing_suggestions.length + 1) + 5) + 1 = g + ((2 * it.famous_attractions.length + 1) + (2 * it.local_cuisine.length + 1) + (2 * it.travel_tips.length + 1) + (2 * it.packing_suggestions.length + 1) + 6) from by omega] at hc
    exact hc
  have h2 : ∀ g, parseF (g + (((it.daily_itineraries.map dayNeed).sum + it.daily_itineraries.length + 1) + (2 * it.famous_attractions.length + 1) + (2 * it.local_cuisine.length + 1) + (2 * it.travel_tips.length + 1) + (2 * it.packing_suggestions.length + 1) + 7)) PMode.membs
      (qstr (klist "daily_itineraries") ++ ':' :: (renderArr (it.daily_itineraries.map renderDay) ++ ',' :: (qstr (klist "famous_attractions") ++ ':' :: (renderArr (it.famous_attractions.map qstr) ++ ',' :: (qstr (klist "local_cuisine") ++ ':' :: (renderArr (it.local_cuisine.map qstr) ++ ',' :: (qstr (klist "travel_tips") ++ ':' :: (renderArr (it.travel_tips.map qstr) ++ ',' :: (qstr (klist "packing_suggestions") ++ ':' :: (renderArr (it.packing_suggestions.map qstr) ++ ',' :: (qstr (klist "total_estimated_cost") ++ ':' :: (renderNat it.total_estimated_cost ++ '}' :: rest)))))))))))) =
      some (PRes.membs [(klist "daily_itineraries", Json.arr (it.daily_itineraries.map dayJson)),
        (klist "famous_attractions", Json.arr (it.famous_attractions.map Json.str)),
        (klist "local_cuisine", Json.arr (it.local_cuisine.map Json.str)),
        (klist "travel_tips", Json.arr (it.travel_tips.map Json.str)),
        (klist "packing_suggestions", Json.arr (it.packing_suggestions.map Json.str)),
        (klist "total_estimated_cost", Json.num it.total_estimated_cost)], rest) := by
    intro g
    have hv := parseF_value_dayArr (g + ((2 * it.famous_attractions.length + 1) + (2 * it.local_cuisine.length + 1) + (2 * it.travel_tips.length + 1) + (2 * it.packing_suggestions.length + 1) + 6)) it.daily_itineraries (',' :: (qstr (klist "famous_attractions") ++ ':' :: (renderArr (it.famous_attractions.map qstr) ++ ',' :: (qstr (klist "local_cuisine") ++ ':' :: (renderArr (it.local_cuisine.map qstr) ++ ',' :: (qstr (klist "travel_tips") ++ ':' :: (renderArr (it.travel_tips.map qstr) ++ ',' :: (qstr (klist "packing_suggestions") ++ ':' :: (renderArr (it.packing_suggestions.map qstr) ++ ',' :: (qstr (klist "total_estimated_cost") ++ ':' :: (renderNat it.total_estimated_cost ++ '}' :: rest))))))))))) hw.2.1
    rw [show g + ((2 * it.famous_attractions.length + 1) + (2 * it.local_cuisine.length + 1) + (2 * it.travel_tips.length + 1) + (2 * it.packing_suggestions.length + 1) + 6) + ((it.daily_itineraries.map dayNeed).sum + it.daily_itineraries.length + 1) = g + (((it.daily_itineraries.map dayNeed).sum + it.daily_itineraries.length + 1) + (2 * it.famous_attractions.length + 1) + (2 * it.local_cuisine.length + 1) + (2 * it.travel_tips.length + 1) + (2 * it.packing_suggestions.length + 1) + 6) from by omega] at hv
    have hm := h3 (g + (((it.daily_itineraries.map dayNeed).sum + it.daily_itineraries.length + 1)))
    rw [show g + (((it.daily_itineraries.map dayNeed).sum + it.daily_itineraries.length + 1)) + ((2 * it.famous_attractions.length + 1) + (2 * it.local_cuisine.length + 1) + (2 * it.travel_tips.length + 1) + (2 * it.packing_suggestions.length + 1) + 6) = g + (((it.daily_itineraries.map dayNeed).sum + it.daily_itineraries.length + 1) + (2 * it.famous_attractions.length + 1) + (2 * it.local_cuisine.length + 1) + (2 * it.travel_tips.length + 1) + (2 * it.packing_suggestions.length + 1) + 6) from by omega] at hm
    have hc := parseF_membs_chain (g + (((it.daily_itineraries.map dayNeed).sum + it.daily_itineraries.length + 1) + (2 * it.famous_attractions.length + 1) + (2 * it.local_cuisine.length + 1) + (2 * it.travel_tips.length + 1) + (2 * it.packing_suggestions.length + 1) + 6)) (klist "daily_itineraries")
      _ _ _ _ _ (by decide) hv hm
    rw [show g + (((it.daily_itineraries.map dayNeed).sum + it.daily_itineraries.length + 1) + (2 * it.famous_attractions.length + 1) + (2 * it.local_cuisine.length + 1) + (2 * it.travel_tips.length + 1) + (2 * it.packing_suggestions.length + 1) + 6) + 1 = g + (((it.daily_itineraries.map dayNeed).sum + it.daily_itineraries.length + 1) + (2 * it.famous_attractions.length + 1) + (2 * it.local_cuisine.length + 1) + (2 * it.travel_tips.length + 1) + (2 * it.packing_suggestions.length + 1) + 7) from by omega] at hc
    exact hc
  have h1 : ∀ g, parseF (g + (((it.daily_itineraries.map dayNeed).sum + it.daily_itineraries.length + 1) + (2 * it.famous_attractions.length + 1) + (2 * it.local_cuisine.length + 1) + (2 * it.travel_tips.length + 1) + (2 * it.packing_suggestions.length + 1) + 9)) PMode.membs
      (qstr (klist "overview") ++ ':' :: (qstr it.overview ++ ',' :: (qstr (klist "daily_itineraries") ++ ':' :: (renderArr (it.daily_itineraries.map renderDay) ++ ',' :: (qstr (klist "famous_attractions") ++ ':' :: (renderArr (it.famous_attractions.map qstr) ++ ',' :: (qstr (klist "local_cuisine") ++ ':' :: (renderArr (it.local_cuisine.map qstr) ++ ',' :: (qstr (klist "travel_tips") ++ ':' :: (renderArr (it.travel_tips.map qstr) ++ ',' :: (qstr (klist "packing_suggestions") ++ ':' :: (renderArr (it.packing_suggestions.map qstr) ++ ',' :: (qstr (klist "total_estimated_cost") ++ ':' :: (renderNat it.total_estimated_cost ++ '}' :: rest)))))))))))))) =
      some (PRes.membs [(klist "overview", Json.str it.overview),
        (klist "daily_itineraries", Json.arr (it.daily_itineraries.map dayJson)),
        (klist "famous_attractions", Json.arr (it.famous_attractions.map Json.str)),
        (klist "local_cuisine", Json.arr (it.local_cuisine.map Json.str)),
        (klist "travel_tips", Json.arr (it.travel_tips.map Json.str)),
        (klist "packing_suggestions", Json.arr (it.packing_suggestions.map Json.str)),
        (klist "total_estimated_cost", Json.num it.total_estimated_cost)], rest) := by
    intro g
    have hv := parseF_value_str (g + (((it.daily_itineraries.map dayNeed).sum + it.daily_itineraries.length + 1) + (2 * it.famous_attractions.length + 1) + (2 * it.local_cuisine.length + 1) + (2 * it.travel_tips.length + 1) + (2 * it.packing_suggestions.length + 1) + 7)) it.overview (',' :: (qstr (klist "daily_itineraries") ++ ':' :: (renderArr (it.daily_itineraries.map renderDay) ++ ',' :: (qstr (klist "famous_attractions") ++ ':' :: (renderArr (it.famous_attractions.map qstr) ++ ',' :: (qstr (klist "local_cuisine") ++ ':' :: (renderArr (it.local_cuisine.map qstr) ++ ',' :: (qstr (klist "travel_tips") ++ ':' :: (renderArr (it.travel_tips.map qstr) ++ ',' :: (qstr (klist "packing_suggestions") ++ ':' :: (renderArr (it.packing_suggestions.map qstr) ++ ',' :: (qstr (klist "total_estimated_cost") ++ ':' :: (renderNat it.total_estimated_cost ++ '}' :: rest))))))))))))) (jsonSafeStr_strOk _ hw.1)
    rw [show g + (((it.daily_itineraries.map dayNeed).sum + it.daily_itineraries.length + 1) + (2 * it.famous_attractions.length + 1) + (2 * it.local_cuisine.length + 1) + (2 * it.travel_tips.length + 1) + (2 * it.packing_suggestions.length + 1) + 7) + 1 = g + (((it.daily_itineraries.map dayNeed).sum + it.daily_itineraries.length + 1) + (2 * it.famous_attractions.length + 1) + (2 * it.local_cuisine.length + 1) + (2 * it.travel_tips.length + 1) + (2 * it.packing_suggestions.length + 1) + 8) from by omega] at hv
    have hm := h2 (g + (1))
    rw [show g + (1) + (((it.daily_itineraries.map dayNeed).sum + it.daily_itineraries.length + 1) + (2 * it.famous_attractions.length + 1) + (2 * it.local_cuisine.length + 1) + (2 * it.travel_tips.length + 1) + (2 * it.packing_suggestions.length + 1) + 7) = g + (((it.daily_itineraries.map dayNeed).sum + it.daily_itineraries.length + 1) + (2 * it.famous_attractions.length + 1) + (2 * it.local_cuisine.length + 1) + (2 * it.travel_tips.length + 1) + (2 * it.packing_suggestions.length + 1) + 8) from by omega] at hm
    have hc := parseF_membs_chain (g + (((it.daily_itineraries.map dayNeed).sum + it.daily_itineraries.length + 1) + (2 * it.famous_attractions.length + 1) + (2 * it.local_cuisine.length + 1) + (2 * it.travel_tips.length + 1) + (2 * it.packing_suggestions.length + 1) + 8)) (klist "overview")
      _ _ _ _ _ (by decide) hv hm
    rw [show g + (((it.daily_itineraries.map dayNeed).sum + it.daily_itineraries.length + 1) + (2 * it.famous_attractions.length + 1) + (2 * it.local_cuisine.length + 1) + (2 * it.travel_tips.length + 1) + (2 * it.packing_suggestions.length + 1) + 8) + 1 = g + (((it.daily_itineraries.map dayNeed).sum + it.daily_itineraries.length + 1) + (2 * it.famous_attractions.length + 1) + (2 * it.local_cuisine.length + 1) + (2 * it.travel_tips.length + 1) + (2 * it.packing_suggestions.length + 1) + 9) from by omega] at hc
    exact hc
  have hshape : renderModelJson it ++ rest = '{' ::
      (qstr (klist "overview") ++ ':' :: (qstr it.overview ++ ',' :: (qstr (klist "daily_itineraries") ++ ':' :: (renderArr (it.daily_itineraries.map renderDay) ++ ',' :: (qstr (klist "famous_attractions") ++ ':' :: (renderArr (it.famous_attractions.map qstr) ++ ',' :: (qstr (klist "local_cuisine") ++ ':' :: (renderArr (it.local_cuisine.map qstr) ++ ',' :: (qstr (klist "travel_tips") ++ ':' :: (renderArr (it.travel_tips.map qstr) ++ ',' :: (qstr (klist "packing_suggestions") ++ ':' :: (renderArr (it.packing_suggestions.map qstr) ++ ',' :: (qstr (klist "total_estimated_cost") ++ ':' :: (renderNat it.total_estimated_cost ++ '}' :: rest)))))))))))))) := by
    simp [renderModelJson, renderKV, List.append_assoc]
  rw [hshape]
  rw [show f + itinNeed it = (f + (((it.daily_itineraries.map dayNeed).sum + it.daily_itineraries.length + 1) + (2 * it.famous_attractions.length + 1) + (2 * it.local_cuisine.length + 1) + (2 * it.travel_tips.length + 1) + (2 * it.packing_suggestions.length + 1) + 9)) + 1 from by simp [itinNeed]; omega]
  rw [parseF_value_obj_step]
  have ht : (qstr (klist "overview") ++ ':' :: (qstr it.overview ++ ',' :: (qstr (klist "daily_itineraries") ++ ':' :: (renderArr (it.daily_itineraries.map renderDay) ++ ',' :: (qstr (klist "famous_attractions") ++ ':' :: (renderArr (it.famous_attractions.map qstr) ++ ',' :: (qstr (klist "local_cuisine") ++ ':' :: (renderArr (it.local_cuisine.map qstr) ++ ',' :: (qstr (klist "travel_tips") ++ ':' :: (renderArr (it.travel_tips.map qstr) ++ ',' :: (qstr (klist "packing_suggestions") ++ ':' :: (renderArr (it.packing_suggestions.map qstr) ++ ',' :: (qstr (klist "total_estimated_cost") ++ ':' :: (renderNat it.total_estimated_cost ++ '}' :: rest)))))))))))))) =
      '"' :: (klist "overview" ++ '"' :: (':' :: (qstr it.overview ++ ',' :: (qstr (klist "daily_itineraries") ++ ':' :: (renderArr (it.daily_itineraries.map renderDay) ++ ',' :: (qstr (klist "famous_attractions") ++ ':' :: (renderArr (it.famous_attractions.map qstr) ++ ',' :: (qstr (klist "local_cuisine") ++ ':' :: (renderArr (it.local_cuisine.map qstr) ++ ',' :: (qstr (klist "travel_tips") ++ ':' :: (renderArr (it.travel_tips.map qstr) ++ ',' :: (qstr (klist "packing_suggestions") ++ ':' :: (renderArr (it.packing_suggestions.map qstr) ++ ',' :: (qstr (klist "total_estimated_cost") ++ ':' :: (renderNat it.total_estimated_cost ++ '}' :: rest))))))))))))))) := by
    simp [qstr]
  rw [ht, skipWs_not_ws _ _ (by decide)]
  rw [if_neg (by simp)]
  rw [← ht]
  rw [h1 f]
  rfl

theorem qstr_length (s : List Char) : (qstr s).length = s.length + 2 := by
  simp [qstr]

theorem renderKV_length (k : String) (v : List Char) :
    (renderKV k v).length = (klist k).length + 3 + v.length := by
  simp [renderKV, qstr]
  omega

theorem renderArr_length_ge {α : Type} (render : α → List Char) (need : α → Nat)
    (xs : List α) (h : ∀ x ∈ xs, need x ≤ (render x).length) :
    (xs.map need).sum + xs.length + 1 ≤ (renderArr (xs.map render)).length := by
  have hcj : ∀ (ys : List α), (∀ x ∈ ys, need x ≤ (render x).length) →
      (ys.map need).sum + ys.length ≤ (commaJoin (ys.map render)).length + 1 := by
    intro ys
    induction ys with
    | nil => intro _; simp
    | cons x ys' ih =>
      intro hy
      cases ys' with
      | nil =>
        simp only [List.map_cons, List.map_nil, List.sum_cons, List.sum_nil,
          List.length_cons, List.length_nil, commaJoin]
        have := hy x (by simp)
        omega
      | cons z zs =>
        have hx := hy x (by simp)
        have hrest := ih (fun w hw => hy w (by simp [hw]))
        simp only [List.map_cons, List.sum_cons, List.length_cons, commaJoin] at hrest ⊢
        simp only [List.length_append, List.length_cons]
        omega
  have := hcj xs h
  simp only [renderArr, List.length_cons, List.length_append, List.length_nil]
  omega

theorem renderActivity_length_ge (a : Activity) : 11 ≤ (renderActivity a).length := by
  have h1 : (klist "time").length = 4 := by decide
  simp only [renderActivity, List.length_append, List.length_cons, renderKV_length,
    qstr_length]
  omega

theorem renderMeal_length_ge (m : Meal) : 9 ≤ (renderMeal m).length := by
  have h1 : (klist "meal").length = 4 := by decide
  simp only [renderMeal, List.length_append, List.length_cons, renderKV_length,
    qstr_length]
  omega

theorem renderDay_length_ge (d : DayPlan) : dayNeed d ≤ (renderDay d).length := by
  have hA : 12 * d.activities.length + 1 ≤
      (renderArr (d.activities.map renderActivity)).length := by
    have h := renderArr_length_ge renderActivity (fun _ => 11) d.activities
      (fun a _ => renderActivity_length_ge a)
    rw [sum_map_const] at h
    omega
  have hM : 10 * d.meals.length + 1 ≤ (renderArr (d.meals.map renderMeal)).length := by
    have h := renderArr_length_ge renderMeal (fun _ => 9) d.meals
      (fun m _ => renderMeal_length_ge m)
    rw [sum_map_const] at h
    omega
  have h1 : (klist "estimated_cost").length = 14 := by decide
  simp only [dayNeed, renderDay, List.length_append, List.length_cons, renderKV_length,
    qstr_length]
  omega

theorem renderModelJson_length_ge (it : Itinerary) :
    itinNeed it ≤ (renderModelJson it).length := by
  have hD : (it.daily_itineraries.map dayNeed).sum + it.daily_itineraries.length + 1 ≤
      (renderArr (it.daily_itineraries.map renderDay)).length :=
    renderArr_length_ge renderDay dayNeed it.daily_itineraries
      (fun d _ => renderDay_length_ge d)
  have hFa : 2 * it.famous_attractions.length + 1 ≤
      (renderArr (it.famous_attractions.map qstr)).length := by
    have h := renderArr_length_ge qstr (fun _ => 1) it.famous_attractions
      (fun s _ => by show 1 ≤ (qstr s).length; rw [qstr_length]; omega)
    rw [sum_map_const] at h
    omega
  have hL : 2 * it.local_cuisine.length + 1 ≤
      (renderArr (it.local_cuisine.map qstr)).length := by
    have h := renderArr_length_ge qstr (fun _ => 1) it.local_cuisine
      (fun s _ => by show 1 ≤ (qstr s).length; rw [qstr_length]; omega)
    rw [sum_map_const] at h
    omega
  have hT : 2 * it.travel_tips.length + 1 ≤
      (renderArr (it.travel_tips.map qstr)).length := by
    have h := renderArr_length_ge qstr (fun _ => 1) it.travel_tips
      (fun s _ => by show 1 ≤ (qstr s).length; rw [qstr_length]; omega)
    rw [sum_map_const] at h
    omega
  have hP : 2 * it.packing_suggestions.length + 1 ≤
      (renderArr (it.packing_suggestions.map qstr)).length := by
    have h := renderArr_length_ge qstr (fun _ => 1) it.packing_suggestions
      (fun s _ => by show 1 ≤ (qstr s).length; rw [qstr_length]; omega)
    rw [sum_map_const] at h
    omega
  have h1 : (klist "overview").length = 8 := by decide
  simp only [itinNeed, renderModelJson, List.length_append, List.length_cons,
    renderKV_length, qstr_length]
  omega

theorem nm_app {a : Char} {l₁ l₂ : List Char} (h1 : a ∉ l₁) (h2 : a ∉ l₂) :
    a ∉ l₁ ++ l₂ := by
  intro hm
  rcases List.mem_append.mp hm with h | h
  · exact h1 h
  · exact h2 h

theorem nm_cons {a c : Char} {l : List Char} (h1 : a ≠ c) (h2 : a ∉ l) :
    a ∉ c :: l := by
  intro hm
  rcases List.mem_cons.mp hm with h | h
  · exact h1 h
  · exact h2 h

theorem jsonSafeStr_no_bt (s : List Char) (h : jsonSafeStr s = true) : btChar ∉ s :=
  fun hm => absurd (List.all_eq_true.mp h btChar hm) (by decide)

theorem not_mem_qstr_of (s : List Char) (hs : btChar ∉ s) : btChar ∉ qstr s :=
  nm_cons (by decide) (nm_app hs (by decide))

theorem not_mem_renderNat (n : Nat) : btChar ∉ renderNat n :=
  fun hm => absurd (renderNat_digits n btChar hm) (by decide)

theorem not_mem_renderKV (k : String) (v : List Char) (hk : btChar ∉ klist k)
    (hv : btChar ∉ v) : btChar ∉ renderKV k v :=
  nm_app (not_mem_qstr_of _ hk) (nm_cons (by decide) hv)

theorem not_mem_commaJoin (xs : List (List Char)) (h : ∀ x ∈ xs, btChar ∉ x) :
    btChar ∉ commaJoin xs := by
  induction xs with
  | nil => simp [commaJoin]
  | cons x xs' ih =>
    cases xs' with
    | nil => simpa [commaJoin] using h x (by simp)
    | cons y ys =>
      exact nm_app (h x (by simp)) (nm_cons (by decide)
        (ih (fun w hw => h w (by simp [hw]))))

theorem not_mem_renderArr (xs : List (List Char)) (h : ∀ x ∈ xs, btChar ∉ x) :
    btChar ∉ renderArr xs :=
  nm_cons (by decide) (nm_app (not_mem_commaJoin xs h) (by decide))

theorem not_mem_renderActivity (a : Activity) (ha : activityWf a = true) :
    btChar ∉ renderActivity a := by
  have hw : jsonSafeStr a.time = true ∧ jsonSafeStr a.activity = true ∧
      jsonSafeStr a.description = true ∧ jsonSafeStr a.duration = true := by
    simpa [activityWf, Bool.and_eq_true, and_assoc] using ha
  exact nm_app (nm_cons (by decide)
    (nm_app (nm_app (nm_app (nm_app (not_mem_renderKV _ _ (by decide) (not_mem_qstr_of _ (jsonSafeStr_no_bt _ hw.1)))
      (nm_cons (by decide) (not_mem_renderKV _ _ (by decide) (not_mem_qstr_of _ (jsonSafeStr_no_bt _ hw.2.1)))))
      (nm_cons (by decide) (not_mem_renderKV _ _ (by decide) (not_mem_qstr_of _ (jsonSafeStr_no_bt _ hw.2.2.1)))))
      (nm_cons (by decide) (not_mem_renderKV _ _ (by decide) (not_mem_qstr_of _ (jsonSafeStr_no_bt _ hw.2.2.2)))))
      (nm_cons (by decide) (not_mem_renderKV _ _ (by decide) (not_mem_renderNat a.cost)))))
    (by decide)

theorem not_mem_renderMeal (m : Meal) (hm : mealWf m = true) :
    btChar ∉ renderMeal m := by
  have hw : jsonSafeStr m.meal = true ∧ jsonSafeStr m.restaurant = true ∧
      jsonSafeStr m.cuisine = true := by
    simpa [mealWf, Bool.and_eq_true, and_assoc] using hm
  exact nm_app (nm_cons (by decide)
    (nm_app (nm_app (nm_app (not_mem_renderKV _ _ (by decide) (not_mem_qstr_of _ (jsonSafeStr_no_bt _ hw.1)))
      (nm_cons (by decide) (not_mem_renderKV _ _ (by decide) (not_mem_qstr_of _ (jsonSafeStr_no_bt _ hw.2.1)))))
      (nm_cons (by decide) (not_mem_renderKV _ _ (by decide) (not_mem_qstr_of _ (jsonSafeStr_no_bt _ hw.2.2)))))
      (nm_cons (by decide) (not_mem_renderKV _ _ (by decide) (not_mem_renderNat m.cost)))))
    (by decide)

theorem not_mem_renderDay (d : DayPlan) (hd : dayWf d = true) :
    btChar ∉ renderDay d := by
  have hw : jsonSafeStr d.title = true ∧ jsonSafeStr d.travel_tips = true ∧
      (∀ a ∈ d.activities, activityWf a = true) ∧ (∀ m ∈ d.meals, mealWf m = true) := by
    simp only [dayWf, Bool.and_eq_true, List.all_eq_true] at hd
    exact ⟨hd.1.1.1, hd.1.1.2, hd.1.2, hd.2⟩
  have hacts : btChar ∉ renderArr (d.activities.map renderActivity) := by
    apply not_mem_renderArr
    intro x hx
    obtain ⟨a, ha, rfl⟩ := List.mem_map.mp hx
    exact not_mem_renderActivity a (hw.2.2.1 a ha)
  have hmeals : btChar ∉ renderArr (d.meals.map renderMeal) := by
    apply not_mem_renderArr
    intro x hx
    obtain ⟨m2, hm2, rfl⟩ := List.mem_map.mp hx
    exact not_mem_renderMeal m2 (hw.2.2.2 m2 hm2)
  exact nm_app (nm_cons (by decide)
    (nm_app (nm_app (nm_app (nm_app (nm_app (not_mem_renderKV _ _ (by decide) (not_mem_renderNat d.day))
      (nm_cons (by decide) (not_mem_renderKV _ _ (by decide) (not_mem_qstr_of _ (jsonSafeStr_no_bt _ hw.1)))))
      (nm_cons (by decide) (not_mem_renderKV _ _ (by decide) hacts)))
      (nm_cons (by decide) (not_mem_renderKV _ _ (by decide) hmeals)))
      (nm_cons (by decide) (not_mem_renderKV _ _ (by decide) (not_mem_renderNat d.estimated_cost))))
      (nm_cons (by decide) (not_mem_renderKV _ _ (by decide) (not_mem_qstr_of _ (jsonSafeStr_no_bt _ hw.2.1))))))
    (by decide)

theorem not_mem_strArr (xs : List (List Char)) (h : ∀ s ∈ xs, jsonSafeStr s = true) :
    btChar ∉ renderArr (xs.map qstr) := by
  apply not_mem_renderArr
  intro x hx
  obtain ⟨s, hs, rfl⟩ := List.mem_map.mp hx
  exact not_mem_qstr_of s (jsonSafeStr_no_bt s (h s hs))

theorem not_mem_renderModelJson (it : Itinerary) (hwf : itineraryWf it = true) :
    btChar ∉ renderModelJson it := by
  have hw : jsonSafeStr it.overview = true ∧ (∀ d ∈ it.daily_itineraries, dayWf d = true) ∧
      (∀ s ∈ it.famous_attractions, jsonSafeStr s = true) ∧
      (∀ s ∈ it.local_cuisine, jsonSafeStr s = true) ∧
      (∀ s ∈ it.travel_tips, jsonSafeStr s = true) ∧
      (∀ s ∈ it.packing_suggestions, jsonSafeStr s = true) := by
    simp only [itineraryWf, Bool.and_eq_true, List.all_eq_true] at hwf
    exact ⟨hwf.1.1.1.1.1, hwf.1.1.1.1.2, hwf.1.1.1.2, hwf.1.1.2, hwf.1.2, hwf.2⟩
  have hdays : btChar ∉ renderArr (it.daily_itineraries.map renderDay) := by
    apply not_mem_renderArr
    intro x hx
    obtain ⟨d, hd, rfl⟩ := List.mem_map.mp hx
    exact not_mem_renderDay d (hw.2.1 d hd)
  exact nm_app (nm_cons (by decide)
    (nm_app (nm_app (nm_app (nm_app (nm_app (nm_app (not_mem_renderKV _ _ (by decide) (not_mem_qstr_of _ (jsonSafeStr_no_bt _ hw.1)))
      (nm_cons (by decide) (not_mem_renderKV _ _ (by decide) hdays)))
      (nm_cons (by decide) (not_mem_renderKV _ _ (by decide) (not_mem_strArr _ hw.2.2.1))))
      (nm_cons (by decide) (not_mem_renderKV _ _ (by decide) (not_mem_strArr _ hw.2.2.2.1))))
      (nm_cons (by decide) (not_mem_renderKV _ _ (by decide) (not_mem_strArr _ hw.2.2.2.2.1))))
      (nm_cons (by decide) (not_mem_renderKV _ _ (by decide) (not_mem_strArr _ hw.2.2.2.2.2))))
      (nm_cons (by decide) (not_mem_renderKV _ _ (by decide) (not_mem_renderNat it.total_estimated_cost)))))
    (by decide)


theorem cleanResponse_renderModelJson (it : Itinerary) (hwf : itineraryWf it = true) :
    cleanResponse (renderModelJson it) = renderModelJson it := by
  have hnb : btChar ∉ renderModelJson it := not_mem_renderModelJson it hwf
  have hno3 : ¬ occursIn bt3 (renderModelJson it) := by
    rintro ⟨x, y, hxy⟩
    exact hnb (by rw [hxy]; simp [bt3])
  have hno7 : ¬ occursIn json7 (renderModelJson it) := fun h =>
    hno3 (occursIn_of_occursIn_longer bt3 (klist "json") _ h)
  have hstrip : pyStrip (renderModelJson it) = renderModelJson it :=
    pyStrip_eq_self '{' '}' _ (by decide) (by decide)
  unfold cleanResponse
  simp only []
  rw [hstrip]
  rw [hasOccur_false_of_not_occursIn json7 (by decide) _ hno7]
  rw [hasOccur_false_of_not_occursIn bt3 (by decide) _ hno3]
  simp

theorem parseJson_renderModelJson (it : Itinerary) (hwf : itineraryWf it = true) :
    parseJson (renderModelJson it) = some (Json.obj (modelFields it)) := by
  unfold parseJson
  have hle := renderModelJson_length_ge it
  have h := parseF_value_itin (2 * (renderModelJson it).length + 2 - itinNeed it) it [] hwf
  rw [List.append_nil] at h
  rw [show 2 * (renderModelJson it).length + 2 - itinNeed it + itinNeed it =
      2 * (renderModelJson it).length + 2 from by omega] at h
  rw [h]
  rfl

theorem setFields_append_fresh (fs : List (List Char × Json)) (k : List Char) (v : Json)
    (h : ∀ kv ∈ fs, kv.1 ≠ k) : setFields fs k v = fs ++ [(k, v)] := by
  induction fs with
  | nil => rfl
  | cons kv rest ih =>
    obtain ⟨k', v'⟩ := kv
    simp only [setFields]
    rw [if_neg (h (k', v') (by simp))]
    rw [ih (fun w hw => h w (by simp [hw]))]
    simp

/-- C3: serializing a well-formed itinerary to the model's expected JSON
shape (which carries no destination key) and running the Response
Normalizer on that text yields exactly the original value with the
destination field forced to the request's destination — the one mutation
the normalizer performs. -/
theorem claim3_round_trip (it : Itinerary) (destination : List Char)
    (hwf : itineraryWf it = true) :
    normalizeResponse (renderModelJson it) destination =
      Except.ok (itinStoredJson { it with destination := destination }) := by
  unfold normalizeResponse
  simp only []
  rw [cleanResponse_renderModelJson it hwf]
  rw [parseJson_renderModelJson it hwf]
  rfl


theorem claim3_witness :
    itineraryWf exItin = true ∧
      normalizeResponse (renderModelJson exItin) (klist "Lisbon") =
        Except.ok (itinStoredJson { exItin with destination := klist "Lisbon" }) :=
  ⟨by decide, claim3_round_trip exItin (klist "Lisbon") (by decide)⟩
